import Mathlib

/-!
# Video analysis backend: the request handlers of `api/index.js` and `api/analyze.js`

Both files hold the same orchestration: validate the request, flag the task as being analysed,
read the task, resolve the video, run the model once per persona, store one result per
persona, flag the task as completed; any error inside the guarded section flags the task as
failed and is answered with status 500.

The external services (table store, drive metadata, file transfer, generative model) and the
library functions the handlers call (`JSON.parse`, `Buffer.toString`, the `cors` middleware)
are parameters of the model, collected in `Env`; each answers as a function of its arguments.
A run of a handler is the list of external calls it issued, in order, with its outcome.
Thrown values are represented by their message.
-/

namespace VideoAnalysis

/-! ## JavaScript values -/

/-- Truthiness of a value that is a string or absent: absent and empty are falsy. The
result is the string when it is truthy. -/
def truthy : Option String → Option String
  | some s => if s = "" then none else some s
  | none => none

/-- The expression `a || d` for a string-or-absent `a`. -/
def orDefault (a : Option String) (d : String) : String :=
  match truthy a with
  | some s => s
  | none => d

/-! ## The extraction pattern `/\{[\s\S]*\}/` -/

/-- The character `{`. -/
def openBrace : Char := Char.ofNat 123

/-- The character `}`. -/
def closeBrace : Char := Char.ofNat 125

/-- The part `[\s\S]*\}` of the pattern, run on the text after the opening brace. The star is
greedy: it first takes one more character and the remainder of the pattern is tried on what
follows; only when that fails does the star stop here and the closing brace is tried on the
current character. The result is the text matched. -/
def matchStarClose : List Char → Option (List Char)
  | [] => none
  | c :: cs =>
    match matchStarClose cs with
    | some m => some (c :: m)
    | none => if c = closeBrace then some [c] else none

/-- The whole pattern tried at the start of the given text. -/
def matchHere : List Char → Option (List Char)
  | [] => none
  | c :: cs =>
    if c = openBrace then
      match matchStarClose cs with
      | some m => some (c :: m)
      | none => none
    else none

/-- The search of `String.prototype.match` with a pattern without the `g` flag: the pattern is
tried at each position from left to right and the first success is the match. -/
def regexSearch : List Char → Option (List Char)
  | [] => none
  | c :: cs =>
    match matchHere (c :: cs) with
    | some m => some m
    | none => regexSearch cs

/-- The value `jsonMatch[0]` of `responseText.match(/\{[\s\S]*\}/)`, or `none` when the match
is `null`. The text is read character by character; the pattern treats all characters alike
except the two braces, which are single code units, so the match is the same as on the
UTF-16 code units of the JavaScript string. -/
def jsonMatch (responseText : String) : Option String :=
  (regexSearch responseText.data).map String.mk

/-! ## Records of the table store and the other services -/

/-- The values written to the field `分析状态` of a task. -/
inductive Status
  | analyzing
  | completed
  | failed
  deriving DecidableEq

/-- The text of a status value as it is written to the table. -/
def Status.text : Status → String
  | .analyzing => "分析中"
  | .completed => "已完成"
  | .failed => "失败"

/-- One element of the attachment field `上传视频`. -/
structure Attachment where
  file_token : Option String
  deriving DecidableEq

/-- One element of the link field `分析视角 (多选)`. -/
structure LinkedRecord where
  record_id : String
  deriving DecidableEq

/-- The fields of a task record that the handlers read. -/
structure TaskFields where
  /-- Field `上传视频`. -/
  videoAttachment : Option (List Attachment)
  /-- Field `视频链接`. -/
  videoUrl : Option String
  /-- Field `分析视角 (多选)`. -/
  personas : Option (List LinkedRecord)
  deriving DecidableEq

/-- What `fetch(url)` resolves to, as far as `fileToGenerativePart` reads it. -/
structure FetchResponse where
  ok : Bool
  statusText : String
  /-- The outcome of `response.buffer()`. -/
  buffer : Except String (List Nat)
  /-- The value of `response.headers.get('content-type')`. -/
  contentType : Option String

/-- The media part handed to the model: `inlineData` with `data` and `mimeType`. -/
structure VideoPart where
  data : String
  mimeType : String
  deriving DecidableEq

/-- A property of the parsed model answer: absent, a string, or another JSON value kept as
its text. -/
inductive FieldValue
  | undefined
  | text (s : String)
  | other (json : String)
  deriving DecidableEq

/-- The two properties of the parsed answer that are stored. -/
structure AnalysisResult where
  timestamp_analysis : FieldValue
  overall_summary : FieldValue
  deriving DecidableEq

/-- The process settings the handlers read. -/
structure Config where
  TABLE_ID_TASKS : String
  TABLE_ID_PERSONAS : String
  TABLE_ID_RESULTS : String
  GEMINI_MODEL_IDENTIFIER : Option String

/-- An external call issued by a handler, with its arguments. -/
inductive Call
  /-- Call `appTableRecord.update` setting the field `分析状态`. -/
  | update (table_id record_id : String) (status : Status)
  /-- Call `appTableRecord.get`. -/
  | get (table_id record_id : String)
  /-- Call `drive.file.meta`. -/
  | fileMeta (file_token : String)
  /-- Call `fetch(url)`. -/
  | fetch (url : String)
  /-- Call `model.generateContent([prompt, videoPart])` on the named model. -/
  | generateContent (model prompt : String) (videoPart : VideoPart)
  /-- Call `appTableRecord.create` with the fields `关联任务`, `分析视角`, `时间点分析` and
  `综合评价与建议`. -/
  | create (table_id task persona : String) (timestamp_analysis overall_summary : FieldValue)
  deriving DecidableEq

/-- The parsed JSON body of a request, as far as the handlers read it. -/
structure RequestBody where
  record_id : Option String

/-- The incoming request as the handlers read it. -/
structure Request where
  method : String
  /-- The value of `req.body`: absent when the platform parsed no body (a request sent with
  no body or no content type), else the parsed body. -/
  body : Option RequestBody

/-- What the `cors` middleware does with its callback. -/
inductive CorsOutcome
  /-- The callback is called with no error. -/
  | next
  /-- The callback is called with an `Error`. -/
  | failed (message : String)
  /-- The callback is never called. -/
  | ended

/-- The services and library functions the handlers depend on. -/
structure Env where
  /-- Outcome of `appTableRecord.update` for a table, a record and a status. -/
  update : String → String → Status → Except String Unit
  /-- Outcome of `appTableRecord.get` on a task, read up to `.data.record.fields`. -/
  getTask : String → String → Except String TaskFields
  /-- Outcome of `appTableRecord.get` on a persona, read up to the field `AI提示词描述`. -/
  getPersona : String → String → Except String (Option String)
  /-- Outcome of `drive.file.meta`, read up to `.data.download_url`. -/
  fileMeta : String → Except String String
  /-- Outcome of `fetch(url)`. -/
  fetch : String → Except String FetchResponse
  /-- The function `buffer.toString("base64")`. -/
  base64 : List Nat → String
  /-- Outcome of `generateContent` for a model, a prompt and a media part, read up to
  `result.response.text()`. -/
  generateContent : String → String → VideoPart → Except String String
  /-- The function `JSON.parse`, read up to the two stored properties. -/
  jsonParse : String → Except String AnalysisResult
  /-- Outcome of `appTableRecord.create` for a table, a task, a persona and the two texts. -/
  create : String → String → String → FieldValue → FieldValue → Except String Unit
  /-- The middleware built by `cors()`. -/
  cors : Request → CorsOutcome
  /-- The message of the `TypeError` the engine throws at `const { record_id } = req.body`
  when `req.body` is absent. -/
  bodyTypeError : String

/-! ## Runs -/

/-- The calls issued by a piece of the handler and its value, or the message of the error it
threw. -/
structure Run (α : Type) where
  calls : List Call
  result : Except String α

namespace Run

/-- An awaited external call. -/
def call {α : Type} (c : Call) (r : Except String α) : Run α := ⟨[c], r⟩

/-- The statement `throw new Error(message)`. -/
def fail {α : Type} (message : String) : Run α := ⟨[], .error message⟩

/-- A local computation that may throw. -/
def lift {α : Type} (r : Except String α) : Run α := ⟨[], r⟩

/-- A value, with no call. -/
def ret {α : Type} (a : α) : Run α := ⟨[], .ok a⟩

/-- Sequencing: the second part runs only when the first did not throw. -/
def andThen {α β : Type} (m : Run α) (f : α → Run β) : Run β :=
  match m.result with
  | .error e => ⟨m.calls, .error e⟩
  | .ok a => ⟨m.calls ++ (f a).calls, (f a).result⟩

instance : Monad Run where
  pure := ret
  bind := andThen

end Run

/-! ## The handlers -/

/-- The function `fileToGenerativePart`. -/
def fileToGenerativePart (env : Env) (url : String) : Run VideoPart := do
  let response ← Run.call (.fetch url) (env.fetch url)
  if response.ok = false then
    Run.fail ("下载文件失败: " ++ response.statusText)
  else do
    let buffer ← Run.lift response.buffer
    pure { data := env.base64 buffer, mimeType := orDefault response.contentType "video/mp4" }

/-- The value of `videoAttachment && videoAttachment[0]?.file_token` when it is truthy. -/
def firstFileToken : Option (List Attachment) → Option String
  | some (a :: _) => truthy a.file_token
  | _ => none

/-- Step 3, the video content: the attachment when it has a file token, else the link. -/
def resolveVideo (env : Env) (fields : TaskFields) : Run VideoPart :=
  match firstFileToken fields.videoAttachment with
  | some fileToken => do
    let downloadUrl ← Run.call (.fileMeta fileToken) (env.fileMeta fileToken)
    fileToGenerativePart env downloadUrl
  | none =>
    match truthy fields.videoUrl with
    | some videoUrl => fileToGenerativePart env videoUrl
    | none => Run.fail "无法获取视频内容"

/-- The value of `fields['分析视角 (多选)']?.map(p => p.record_id) || []`. -/
def personaRecordIds (fields : TaskFields) : List String :=
  match fields.personas with
  | some ps => ps.map (fun p => p.record_id)
  | none => []

/-- What differs between the two files inside the guarded section: the model that is asked
and the prompt built from the persona description. -/
structure Variant where
  model : String
  prompt : String → String

/-- The template of `api/index.js` before the interpolated description. -/
def promptHead : String :=
  "\n" ++
  "              你是一名顶级的短视频内容策略师。请严格且仅仅从以下 [人物画像] 的视角，对提供的视频进行深入分析。\n" ++
  "\n" ++
  "              [人物画像]\n" ++
  "              "

/-- The template of `api/index.js` after the interpolated description. -/
def promptTail : String :=
  "\n" ++
  "\n" ++
  "              [分析任务]\n" ++
  "              1.  [时间点分析]: 请详细识别出视频中能引起该画像“兴趣激增”或“兴趣下降”的关键时间点，并解释原因。请至少找出3-5个关键点。输出格式为 \"mm:ss - 兴趣激增/下降：具体原因...\"，每个时间点占一行。\n" ++
  "              2.  [综合评价与建议]: 请基于以上分析，为该视频给出一个总体的、详细的“综合评价与建议”，内容需要有建设性，告诉创作者如何优化才能更好地吸引这类人群。\n" ++
  "              \n" ++
  "              [输出要求]\n" ++
  "              你的最终输出必须是一个单一的、可以被直接解析的JSON对象，严格遵循以下结构，不要添加任何额外的解释或Markdown标记。\n" ++
  "              \x7b\n" ++
  "                \"timestamp_analysis\": \"mm:ss - 兴趣激增：原因...\\nmm:ss - 兴趣下降：原因...\",\n" ++
  "                \"overall_summary\": \"你的综合评价与建议...\"\n" ++
  "              \x7d\n" ++
  "            "

/-- The guarded section of `api/index.js`: model `gemini-2.5-pro`, and the template with the
description interpolated. -/
def indexVariant : Variant where
  model := "gemini-2.5-pro"
  prompt := fun personaDesc => promptHead ++ personaDesc ++ promptTail

/-- The guarded section of `api/analyze.js`: the configured model or `gemini-1.5-pro-latest`,
and the prompt written there, the three characters `...`. -/
def analyzeVariant (cfg : Config) : Variant where
  model := orDefault cfg.GEMINI_MODEL_IDENTIFIER "gemini-1.5-pro-latest"
  prompt := fun _ => "..."

/-- The message thrown when the answer of the model has no match. -/
def noJsonMessage (personaId : String) : String :=
  "AI未能为画像 " ++ personaId ++ " 返回有效的JSON对象"

/-- The body of the loop for one persona. -/
def analysePersona (v : Variant) (cfg : Config) (env : Env) (record_id : String)
    (videoPart : VideoPart) (personaId : String) : Run Unit := do
  let personaDesc ← Run.call (.get cfg.TABLE_ID_PERSONAS personaId)
    (env.getPersona cfg.TABLE_ID_PERSONAS personaId)
  match truthy personaDesc with
  | none => pure ()
  | some desc => do
    let responseText ← Run.call (.generateContent v.model (v.prompt desc) videoPart)
      (env.generateContent v.model (v.prompt desc) videoPart)
    match jsonMatch responseText with
    | none => Run.fail (noJsonMessage personaId)
    | some matched => do
      let analysisResult ← Run.lift (env.jsonParse matched)
      Run.call
        (.create cfg.TABLE_ID_RESULTS record_id personaId
          analysisResult.timestamp_analysis analysisResult.overall_summary)
        (env.create cfg.TABLE_ID_RESULTS record_id personaId
          analysisResult.timestamp_analysis analysisResult.overall_summary)

/-- Step 4, the loop `for (const personaId of personaRecordIds)`. -/
def personaLoop (v : Variant) (cfg : Config) (env : Env) (record_id : String)
    (videoPart : VideoPart) : List String → Run Unit
  | [] => pure ()
  | personaId :: rest => do
    analysePersona v cfg env record_id videoPart personaId
    personaLoop v cfg env record_id videoPart rest

/-- The content validation after the task is read. -/
def validateTask (fields : TaskFields) : Run Unit :=
  if (personaRecordIds fields).length = 0 then
    Run.fail "未选择任何人物画像进行分析"
  else if fields.videoAttachment.isNone ∧ (truthy fields.videoUrl).isNone then
    Run.fail "未提供视频链接或上传视频文件"
  else pure ()

/-- The body of the `try` block. -/
def guarded (v : Variant) (cfg : Config) (env : Env) (record_id : String) : Run Unit := do
  Run.call (.update cfg.TABLE_ID_TASKS record_id .analyzing)
    (env.update cfg.TABLE_ID_TASKS record_id .analyzing)
  let fields ← Run.call (.get cfg.TABLE_ID_TASKS record_id)
    (env.getTask cfg.TABLE_ID_TASKS record_id)
  validateTask fields
  let videoPart ← resolveVideo env fields
  personaLoop v cfg env record_id videoPart (personaRecordIds fields)
  Run.call (.update cfg.TABLE_ID_TASKS record_id .completed)
    (env.update cfg.TABLE_ID_TASKS record_id .completed)

/-- The JSON body of a response. -/
inductive Body
  /-- The body `{ error }`. -/
  | error (message : String)
  /-- The body `{ success, message }`. -/
  | success (success : Bool) (message : String)
  /-- A body sent with `send`. -/
  | text (s : String)
  deriving DecidableEq

/-- A response: status code and body. -/
structure Response where
  status : Nat
  body : Body
  deriving DecidableEq

/-- How a handler ends. -/
inductive Outcome
  /-- A response is sent. -/
  | responded (r : Response)
  /-- The promise of the handler rejects. -/
  | rejected (message : String)
  /-- The handler never settles. -/
  | pending
  deriving DecidableEq

/-- A run of a handler: the external calls in order, the lines written with `console.error`,
and the outcome. -/
structure HandlerRun where
  calls : List Call
  logs : List String
  outcome : Outcome
  deriving DecidableEq

/-- The lines logged by the `catch` block: the error, and the error of the status update when
that update fails. -/
def catchLogs (message : String) (failedUpdate : Except String Unit) : List String :=
  match failedUpdate with
  | .ok _ => ["分析失败: " ++ message]
  | .error updateErr => ["分析失败: " ++ message, "更新失败状态时出错: " ++ updateErr]

/-- The handler after `const { record_id } = req.body`, for the value read there: the
identifier check, the guarded section and the `catch` block. -/
def analyze (v : Variant) (cfg : Config) (env : Env) (record_id : Option String) : HandlerRun :=
  match truthy record_id with
  | none => ⟨[], [], .responded ⟨400, .error "请求体中必须包含 record_id"⟩⟩
  | some id =>
    match (guarded v cfg env id).result with
    | .ok _ =>
      ⟨(guarded v cfg env id).calls, [],
        .responded ⟨200, .success true "所有视角的分析均已完成"⟩⟩
    | .error message =>
      ⟨(guarded v cfg env id).calls ++ [.update cfg.TABLE_ID_TASKS id .failed],
        catchLogs message (env.update cfg.TABLE_ID_TASKS id .failed),
        .responded ⟨500, .error message⟩⟩

/-- The route `app.post('/api/analyze', ...)` of `api/index.js`, on a request that the
router hands to it. The destructuring `const { record_id } = req.body` comes before the
`try`: on an absent body it throws and the promise of the route rejects. (The middleware
`express.json()` of Express 4 always leaves a body, an empty object when none was sent.) -/
def postAnalyze (cfg : Config) (env : Env) (req : Request) : HandlerRun :=
  match req.body with
  | none => ⟨[], [], .rejected env.bodyTypeError⟩
  | some body => analyze indexVariant cfg env body.record_id

/-- The function `handler` of `api/analyze.js`: the `cors` middleware, the method check,
the destructuring `const { record_id } = req.body`, which throws on an absent body before
the `try`, and then the identifier check, the guarded section and the `catch` block. -/
def handler (cfg : Config) (env : Env) (req : Request) : HandlerRun :=
  match env.cors req with
  | .ended => ⟨[], [], .pending⟩
  | .failed message => ⟨[], [], .rejected message⟩
  | .next =>
    if req.method ≠ "POST" then
      ⟨[], [], .responded ⟨405, .text "Method Not Allowed"⟩⟩
    else
      match req.body with
      | none => ⟨[], [], .rejected env.bodyTypeError⟩
      | some body => analyze (analyzeVariant cfg) cfg env body.record_id

/-! ## Reading a run -/

/-- The status written by a call, when the call is a status update. -/
def Call.status? : Call → Option Status
  | .update _ _ s => some s
  | _ => none

/-- The linked task and persona of a call, when the call creates a result record. -/
def Call.created? : Call → Option (String × String)
  | .create _ task persona _ _ => some (task, persona)
  | _ => none

/-- The prompt of a call, when the call asks the model. -/
def Call.prompt? : Call → Option String
  | .generateContent _ prompt _ => some prompt
  | _ => none

/-- The file token of a call, when the call is a metadata lookup. -/
def Call.token? : Call → Option String
  | .fileMeta token => some token
  | _ => none

/-- The URL of a call, when the call is a download. -/
def Call.url? : Call → Option String
  | .fetch url => some url
  | _ => none

/-- The statuses written, in order. -/
def statusUpdates (calls : List Call) : List Status := calls.filterMap Call.status?

/-- The result records whose creation was requested, in order, as pairs of the linked task
and the linked persona. -/
def createdResults (calls : List Call) : List (String × String) :=
  calls.filterMap Call.created?

/-- The prompts sent to the model, in order. -/
def modelPrompts (calls : List Call) : List String := calls.filterMap Call.prompt?

/-- The file tokens looked up, in order. -/
def metaLookups (calls : List Call) : List String := calls.filterMap Call.token?

/-- The URLs fetched, in order. -/
def downloads (calls : List Call) : List String := calls.filterMap Call.url?

/-- The description of a persona as the loop sees it: the field of the record when the
record is read and the field is truthy. -/
def personaDescription (cfg : Config) (env : Env) (personaId : String) : Option String :=
  match env.getPersona cfg.TABLE_ID_PERSONAS personaId with
  | .ok d => truthy d
  | .error _ => none

/-- The personas of a list that have a description, in the order of the list. -/
def describedPersonas (cfg : Config) (env : Env) (personaIds : List String) : List String :=
  personaIds.filter (fun p => (personaDescription cfg env p).isSome)

/-- The download of a URL succeeds and gives the media part. -/
def Downloads (env : Env) (url : String) (videoPart : VideoPart) : Prop :=
  ∃ response bytes, env.fetch url = .ok response ∧ response.ok = true ∧
    response.buffer = .ok bytes ∧
    videoPart = ⟨env.base64 bytes, orDefault response.contentType "video/mp4"⟩

/-- The task has a video source and every call that resolves it succeeds: an attachment
with a file token whose metadata lookup and download succeed, or else a link whose
download succeeds. -/
def VideoAvailable (env : Env) (fields : TaskFields) (videoPart : VideoPart) : Prop :=
  (∃ token url, firstFileToken fields.videoAttachment = some token ∧
      env.fileMeta token = .ok url ∧ Downloads env url videoPart) ∨
  (∃ url, firstFileToken fields.videoAttachment = none ∧
      truthy fields.videoUrl = some url ∧ Downloads env url videoPart)

/-- Every call for one persona succeeds: the record is read, and when it has a description
the model answers, the answer has a match that parses, and the result record is created. -/
def PersonaSucceeds (v : Variant) (cfg : Config) (env : Env) (record_id : String)
    (videoPart : VideoPart) (personaId : String) : Prop :=
  ∃ d, env.getPersona cfg.TABLE_ID_PERSONAS personaId = .ok d ∧
    ∀ desc, truthy d = some desc →
      ∃ text matched r,
        env.generateContent v.model (v.prompt desc) videoPart = .ok text ∧
        jsonMatch text = some matched ∧ env.jsonParse matched = .ok r ∧
        env.create cfg.TABLE_ID_RESULTS record_id personaId
          r.timestamp_analysis r.overall_summary = .ok ()

/-- The environment in which the status update to `failed` has the given outcome and
everything else is as before. -/
def Env.withFailedUpdate (env : Env) (r : Except String Unit) : Env :=
  { env with update := fun t record s => if s = .failed then r else env.update t record s }

/-! ## A concrete deployment, to evaluate the handlers on -/

/-- Settings with the three tables named and no model configured. -/
def sampleConfig : Config :=
  { TABLE_ID_TASKS := "tblTasks", TABLE_ID_PERSONAS := "tblPersonas",
    TABLE_ID_RESULTS := "tblResults", GEMINI_MODEL_IDENTIFIER := none }

/-- A task with an attachment, a link and three personas. -/
def sampleFields : TaskFields :=
  { videoAttachment := some [{ file_token := some "boxTok1" }],
    videoUrl := some "https://video.example/a.mp4",
    personas := some [{ record_id := "p1" }, { record_id := "p2" }, { record_id := "p3" }] }

/-- The answer of the model in the sample: an object between two pieces of prose. -/
def sampleAnswer : String := "Here: \x7b\"overall_summary\": \"ok\"\x7d done"

/-- Services that all answer; the personas `p1` and `p3` have a description and `p2` has
none. -/
def sampleEnv : Env :=
  { update := fun _ _ _ => .ok ()
    getTask := fun _ _ => .ok sampleFields
    getPersona := fun _ p =>
      if p = "p2" then .ok none else if p = "p3" then .ok (some "学生") else .ok (some "宝妈")
    fileMeta := fun _ => .ok "https://drive.example/dl/1"
    fetch := fun _ =>
      .ok { ok := true, statusText := "OK", buffer := .ok [1, 2, 3], contentType := none }
    base64 := fun _ => "AQID"
    generateContent := fun _ _ _ => .ok sampleAnswer
    jsonParse := fun _ => .ok { timestamp_analysis := .undefined, overall_summary := .text "ok" }
    create := fun _ _ _ _ _ => .ok ()
    cors := fun _ => .next
    bodyTypeError := "Cannot destructure property record_id of req.body as it is undefined." }

/-- The same services with a task that has a link and no attachment. -/
def linkOnlyEnv : Env :=
  { sampleEnv with
    getTask := fun _ _ => .ok { sampleFields with videoAttachment := none } }

/-- The same services with a task that has no persona selected. -/
def noPersonaEnv : Env :=
  { sampleEnv with getTask := fun _ _ => .ok { sampleFields with personas := some [] } }

/-- The same services with a model that answers the prompt of the description `学生` in
prose only. -/
def proseEnv : Env :=
  { sampleEnv with
    generateContent := fun _ prompt _ =>
      if prompt = promptHead ++ "学生" ++ promptTail then .ok "I cannot analyse this video."
      else .ok sampleAnswer }

/-- The same services with a model that answers the prompt of the description `学生` with
an object that does not parse. -/
def brokenJsonEnv : Env :=
  { sampleEnv with
    generateContent := fun _ prompt _ =>
      if prompt = promptHead ++ "学生" ++ promptTail then .ok "\x7boverall_summary: ok\x7d"
      else .ok sampleAnswer
    jsonParse := fun matched =>
      if matched = "\x7boverall_summary: ok\x7d" then
        .error "Unexpected token o in JSON at position 1"
      else .ok { timestamp_analysis := .undefined, overall_summary := .text "ok" } }

/-- A request with the method `POST` and the identifier `rec1` in its body. -/
def sampleRequest : Request := { method := "POST", body := some { record_id := some "rec1" } }

/-- The media part the sample services give. -/
def sampleVideo : VideoPart := { data := "AQID", mimeType := "video/mp4" }

/-! ## The extraction pattern: lemmas -/

theorem matchStarClose_none_of_not_mem (l : List Char) (h : closeBrace ∉ l) :
    matchStarClose l = none := by
  induction l with
  | nil => rfl
  | cons c cs ih =>
    have hc : c ≠ closeBrace := fun e => h (by simp [e])
    have hcs : closeBrace ∉ cs := fun e => h (by simp [e])
    simp [matchStarClose, ih hcs, hc]

theorem matchStarClose_append (mid suf : List Char) (h : closeBrace ∉ suf) :
    matchStarClose (mid ++ closeBrace :: suf) = some (mid ++ [closeBrace]) := by
  induction mid with
  | nil => simp [matchStarClose, matchStarClose_none_of_not_mem suf h]
  | cons c cs ih => simp [matchStarClose, ih]

theorem mem_of_matchStarClose (l m : List Char) (h : matchStarClose l = some m) :
    closeBrace ∈ l := by
  by_contra hn
  rw [matchStarClose_none_of_not_mem l hn] at h
  exact absurd h (by simp)

theorem regexSearch_skip (pre l : List Char) (h : openBrace ∉ pre) :
    regexSearch (pre ++ l) = regexSearch l := by
  induction pre with
  | nil => rfl
  | cons c cs ih =>
    have hc : c ≠ openBrace := fun e => h (by simp [e])
    have hcs : openBrace ∉ cs := fun e => h (by simp [e])
    simp [regexSearch, matchHere, hc, ih hcs]

theorem regexSearch_span (pre mid suf : List Char) (hpre : openBrace ∉ pre)
    (hsuf : closeBrace ∉ suf) :
    regexSearch (pre ++ openBrace :: (mid ++ closeBrace :: suf))
      = some (openBrace :: (mid ++ [closeBrace])) := by
  rw [regexSearch_skip _ _ hpre]
  simp [regexSearch, matchHere, matchStarClose_append mid suf hsuf]

theorem regexSearch_none (text : List Char)
    (h : ∀ pre mid suf, text ≠ pre ++ openBrace :: (mid ++ closeBrace :: suf)) :
    regexSearch text = none := by
  induction text with
  | nil => rfl
  | cons c cs ih =>
    have hcs : ∀ pre mid suf, cs ≠ pre ++ openBrace :: (mid ++ closeBrace :: suf) := by
      intro pre mid suf e
      exact h (c :: pre) mid suf (by simp [e])
    have hhere : matchHere (c :: cs) = none := by
      by_cases hc : c = openBrace
      · cases hm : matchStarClose cs with
        | none => simp [matchHere, hm]
        | some m =>
          obtain ⟨mid, suf, e⟩ := List.append_of_mem (mem_of_matchStarClose cs m hm)
          exact absurd (by simp [hc, e]) (h [] mid suf)
      · simp [matchHere, hc]
    simp [regexSearch, hhere, ih hcs]

/-! ## Runs: unfolding -/

@[simp] theorem Run.bind_eq {α β : Type} (m : Run α) (f : α → Run β) :
    (m >>= f) = Run.andThen m f := rfl

@[simp] theorem Run.pure_eq {α : Type} (a : α) : (pure a : Run α) = Run.ret a := rfl

theorem Run.call_ok_andThen {α β : Type} (c : Call) (a : α) (f : α → Run β) :
    Run.andThen (Run.call c (.ok a)) f = ⟨c :: (f a).calls, (f a).result⟩ := rfl

theorem Run.call_error_andThen {α β : Type} (c : Call) (e : String) (f : α → Run β) :
    Run.andThen (Run.call c (.error e : Except String α)) f = ⟨[c], .error e⟩ := rfl

theorem Run.andThen_ok {α β : Type} (m : Run α) (f : α → Run β) (a : α)
    (h : m.result = .ok a) :
    Run.andThen m f = ⟨m.calls ++ (f a).calls, (f a).result⟩ := by
  simp [Run.andThen, h]

theorem Run.andThen_error {α β : Type} (m : Run α) (f : α → Run β) (e : String)
    (h : m.result = .error e) :
    Run.andThen m f = ⟨m.calls, .error e⟩ := by
  simp [Run.andThen, h]

/-! ## One persona -/

theorem analysePersona_get_error (v : Variant) (cfg : Config) (env : Env) (id : String)
    (vp : VideoPart) (p e : String)
    (h : env.getPersona cfg.TABLE_ID_PERSONAS p = .error e) :
    analysePersona v cfg env id vp p = ⟨[.get cfg.TABLE_ID_PERSONAS p], .error e⟩ := by
  simp [analysePersona, Run.andThen, Run.call, Run.fail, Run.ret, Run.lift, h]

theorem analysePersona_skip (v : Variant) (cfg : Config) (env : Env) (id : String)
    (vp : VideoPart) (p : String) (d : Option String)
    (h : env.getPersona cfg.TABLE_ID_PERSONAS p = .ok d) (hd : truthy d = none) :
    analysePersona v cfg env id vp p = ⟨[.get cfg.TABLE_ID_PERSONAS p], .ok ()⟩ := by
  simp [analysePersona, Run.andThen, Run.call, Run.fail, Run.ret, Run.lift, h, hd]

theorem analysePersona_generate_error (v : Variant) (cfg : Config) (env : Env) (id : String)
    (vp : VideoPart) (p : String) (d : Option String) (desc e : String)
    (h : env.getPersona cfg.TABLE_ID_PERSONAS p = .ok d) (hd : truthy d = some desc)
    (hg : env.generateContent v.model (v.prompt desc) vp = .error e) :
    analysePersona v cfg env id vp p =
      ⟨[.get cfg.TABLE_ID_PERSONAS p, .generateContent v.model (v.prompt desc) vp],
        .error e⟩ := by
  simp [analysePersona, Run.andThen, Run.call, Run.fail, Run.ret, Run.lift, h, hd, hg]

theorem analysePersona_no_match (v : Variant) (cfg : Config) (env : Env) (id : String)
    (vp : VideoPart) (p : String) (d : Option String) (desc text : String)
    (h : env.getPersona cfg.TABLE_ID_PERSONAS p = .ok d) (hd : truthy d = some desc)
    (hg : env.generateContent v.model (v.prompt desc) vp = .ok text)
    (hm : jsonMatch text = none) :
    analysePersona v cfg env id vp p =
      ⟨[.get cfg.TABLE_ID_PERSONAS p, .generateContent v.model (v.prompt desc) vp],
        .error (noJsonMessage p)⟩ := by
  simp [analysePersona, Run.andThen, Run.call, Run.fail, Run.ret, Run.lift, h, hd, hg, hm]

theorem analysePersona_parse_error (v : Variant) (cfg : Config) (env : Env) (id : String)
    (vp : VideoPart) (p : String) (d : Option String) (desc text m e : String)
    (h : env.getPersona cfg.TABLE_ID_PERSONAS p = .ok d) (hd : truthy d = some desc)
    (hg : env.generateContent v.model (v.prompt desc) vp = .ok text)
    (hm : jsonMatch text = some m) (hp : env.jsonParse m = .error e) :
    analysePersona v cfg env id vp p =
      ⟨[.get cfg.TABLE_ID_PERSONAS p, .generateContent v.model (v.prompt desc) vp],
        .error e⟩ := by
  simp [analysePersona, Run.andThen, Run.call, Run.fail, Run.ret, Run.lift, h, hd, hg, hm, hp]

theorem analysePersona_create (v : Variant) (cfg : Config) (env : Env) (id : String)
    (vp : VideoPart) (p : String) (d : Option String) (desc text m : String)
    (r : AnalysisResult)
    (h : env.getPersona cfg.TABLE_ID_PERSONAS p = .ok d) (hd : truthy d = some desc)
    (hg : env.generateContent v.model (v.prompt desc) vp = .ok text)
    (hm : jsonMatch text = some m) (hp : env.jsonParse m = .ok r) :
    analysePersona v cfg env id vp p =
      ⟨[.get cfg.TABLE_ID_PERSONAS p, .generateContent v.model (v.prompt desc) vp,
          .create cfg.TABLE_ID_RESULTS id p r.timestamp_analysis r.overall_summary],
        env.create cfg.TABLE_ID_RESULTS id p r.timestamp_analysis r.overall_summary⟩ := by
  simp [analysePersona, Run.andThen, Run.call, Run.fail, Run.ret, Run.lift, h, hd, hg, hm, hp]

/-! ## Reading a run: sequencing -/

theorem Run.andThen_calls {α β : Type} (m : Run α) (f : α → Run β) :
    (Run.andThen m f).calls =
      m.calls ++ (match m.result with
        | .ok a => (f a).calls
        | .error _ => []) := by
  unfold Run.andThen
  cases m.result <;> simp

theorem Run.andThen_result_ok {α β : Type} (m : Run α) (f : α → Run β) (b : β)
    (h : (Run.andThen m f).result = .ok b) :
    ∃ a, m.result = .ok a ∧ (f a).result = .ok b := by
  unfold Run.andThen at h
  cases hm : m.result with
  | error e => simp [hm] at h
  | ok a => exact ⟨a, rfl, by simpa [hm] using h⟩

theorem personaLoop_cons (v : Variant) (cfg : Config) (env : Env) (id : String)
    (vp : VideoPart) (p : String) (rest : List String) :
    personaLoop v cfg env id vp (p :: rest) =
      Run.andThen (analysePersona v cfg env id vp p)
        (fun _ => personaLoop v cfg env id vp rest) := rfl

theorem personaLoop_nil (v : Variant) (cfg : Config) (env : Env) (id : String)
    (vp : VideoPart) : personaLoop v cfg env id vp [] = ⟨[], .ok ()⟩ := rfl

/-- When the loop over a first part of the list ends without error, the loop over the whole
list continues with the rest. -/
theorem personaLoop_append (v : Variant) (cfg : Config) (env : Env) (id : String)
    (vp : VideoPart) (pre rest : List String)
    (h : (personaLoop v cfg env id vp pre).result = .ok ()) :
    personaLoop v cfg env id vp (pre ++ rest) =
      ⟨(personaLoop v cfg env id vp pre).calls ++ (personaLoop v cfg env id vp rest).calls,
        (personaLoop v cfg env id vp rest).result⟩ := by
  induction pre with
  | nil => simp [personaLoop_nil]
  | cons p ps ih =>
    rw [personaLoop_cons] at h
    obtain ⟨a, ha, hps⟩ := Run.andThen_result_ok _ _ _ h
    rw [List.cons_append, personaLoop_cons, personaLoop_cons,
      Run.andThen_ok _ _ a ha, Run.andThen_ok _ _ a ha, ih hps]
    simp

/-- What one persona adds to a run that goes on: a result record and a model call when it
has a description, nothing otherwise. -/
theorem analysePersona_ok (v : Variant) (cfg : Config) (env : Env) (id : String)
    (vp : VideoPart) (p : String)
    (h : (analysePersona v cfg env id vp p).result = .ok ()) :
    createdResults (analysePersona v cfg env id vp p).calls =
        (if (personaDescription cfg env p).isSome then [(id, p)] else []) ∧
      modelPrompts (analysePersona v cfg env id vp p).calls =
        ((personaDescription cfg env p).map v.prompt).toList := by
  cases hget : env.getPersona cfg.TABLE_ID_PERSONAS p with
  | error e => rw [analysePersona_get_error v cfg env id vp p e hget] at h; simp at h
  | ok d =>
    cases hd : truthy d with
    | none =>
      rw [analysePersona_skip v cfg env id vp p d hget hd]
      simp [personaDescription, hget, hd, createdResults, modelPrompts, Call.created?,
        Call.prompt?]
    | some desc =>
      cases hg : env.generateContent v.model (v.prompt desc) vp with
      | error e =>
        rw [analysePersona_generate_error v cfg env id vp p d desc e hget hd hg] at h
        simp at h
      | ok text =>
        cases hm : jsonMatch text with
        | none =>
          rw [analysePersona_no_match v cfg env id vp p d desc text hget hd hg hm] at h
          simp at h
        | some m =>
          cases hp : env.jsonParse m with
          | error e =>
            rw [analysePersona_parse_error v cfg env id vp p d desc text m e hget hd hg hm
              hp] at h
            simp at h
          | ok r =>
            rw [analysePersona_create v cfg env id vp p d desc text m r hget hd hg hm hp]
            simp [personaDescription, hget, hd, createdResults, modelPrompts, Call.created?,
              Call.prompt?]

/-- One persona issues no status update, no metadata lookup and no download. -/
theorem analysePersona_quiet (v : Variant) (cfg : Config) (env : Env) (id : String)
    (vp : VideoPart) (p : String) :
    statusUpdates (analysePersona v cfg env id vp p).calls = [] ∧
      metaLookups (analysePersona v cfg env id vp p).calls = [] ∧
      downloads (analysePersona v cfg env id vp p).calls = [] := by
  cases hget : env.getPersona cfg.TABLE_ID_PERSONAS p with
  | error e =>
    rw [analysePersona_get_error v cfg env id vp p e hget]
    simp [statusUpdates, metaLookups, downloads, Call.status?, Call.token?, Call.url?]
  | ok d =>
    cases hd : truthy d with
    | none =>
      rw [analysePersona_skip v cfg env id vp p d hget hd]
      simp [statusUpdates, metaLookups, downloads, Call.status?, Call.token?, Call.url?]
    | some desc =>
      cases hg : env.generateContent v.model (v.prompt desc) vp with
      | error e =>
        rw [analysePersona_generate_error v cfg env id vp p d desc e hget hd hg]
        simp [statusUpdates, metaLookups, downloads, Call.status?, Call.token?, Call.url?]
      | ok text =>
        cases hm : jsonMatch text with
        | none =>
          rw [analysePersona_no_match v cfg env id vp p d desc text hget hd hg hm]
          simp [statusUpdates, metaLookups, downloads, Call.status?, Call.token?, Call.url?]
        | some m =>
          cases hp : env.jsonParse m with
          | error e =>
            rw [analysePersona_parse_error v cfg env id vp p d desc text m e hget hd hg hm
              hp]
            simp [statusUpdates, metaLookups, downloads, Call.status?, Call.token?,
              Call.url?]
          | ok r =>
            rw [analysePersona_create v cfg env id vp p d desc text m r hget hd hg hm hp]
            simp [statusUpdates, metaLookups, downloads, Call.status?, Call.token?,
              Call.url?]

/-- The loop issues no status update, no metadata lookup and no download. -/
theorem personaLoop_quiet (v : Variant) (cfg : Config) (env : Env) (id : String)
    (vp : VideoPart) (ps : List String) :
    statusUpdates (personaLoop v cfg env id vp ps).calls = [] ∧
      metaLookups (personaLoop v cfg env id vp ps).calls = [] ∧
      downloads (personaLoop v cfg env id vp ps).calls = [] := by
  induction ps with
  | nil => simp [personaLoop_nil, statusUpdates, metaLookups, downloads]
  | cons p rest ih =>
    obtain ⟨h1, h2, h3⟩ := analysePersona_quiet v cfg env id vp p
    obtain ⟨i1, i2, i3⟩ := ih
    rw [personaLoop_cons, Run.andThen_calls]
    simp only [statusUpdates, metaLookups, downloads, List.filterMap_append] at *
    cases (analysePersona v cfg env id vp p).result <;> simp [h1, h2, h3, i1, i2, i3]

/-- A loop that ends without error requested one result record per persona with a
description and asked the model once for each, in the order of the list. -/
theorem personaLoop_ok (v : Variant) (cfg : Config) (env : Env) (id : String)
    (vp : VideoPart) (ps : List String)
    (h : (personaLoop v cfg env id vp ps).result = .ok ()) :
    createdResults (personaLoop v cfg env id vp ps).calls =
        (describedPersonas cfg env ps).map (fun p => (id, p)) ∧
      modelPrompts (personaLoop v cfg env id vp ps).calls =
        ps.filterMap (fun p => (personaDescription cfg env p).map v.prompt) := by
  induction ps with
  | nil => simp [personaLoop_nil, createdResults, modelPrompts, describedPersonas]
  | cons p rest ih =>
    rw [personaLoop_cons] at h
    obtain ⟨a, ha, hrest⟩ := Run.andThen_result_ok _ _ _ h
    obtain ⟨h1, h2⟩ := analysePersona_ok v cfg env id vp p ha
    obtain ⟨i1, i2⟩ := ih hrest
    rw [personaLoop_cons, Run.andThen_ok _ _ a ha]
    simp only [createdResults, modelPrompts, List.filterMap_append] at *
    rw [h1, h2, i1, i2]
    cases hd : personaDescription cfg env p <;>
      simp [describedPersonas, List.filter_cons, List.filterMap_cons, hd]

/-- A loop in which every call succeeds ends without error. -/
theorem personaLoop_succeeds (v : Variant) (cfg : Config) (env : Env) (id : String)
    (vp : VideoPart) (ps : List String)
    (h : ∀ p ∈ ps, PersonaSucceeds v cfg env id vp p) :
    (personaLoop v cfg env id vp ps).result = .ok () := by
  induction ps with
  | nil => rfl
  | cons p rest ih =>
    have hp : (analysePersona v cfg env id vp p).result = .ok () := by
      obtain ⟨d, hget, hd⟩ := h p (by simp)
      cases hdesc : truthy d with
      | none => rw [analysePersona_skip v cfg env id vp p d hget hdesc]
      | some desc =>
        obtain ⟨text, m, r, hg, hm, hparse, hc⟩ := hd desc hdesc
        rw [analysePersona_create v cfg env id vp p d desc text m r hget hdesc hg hm hparse]
        exact hc
    rw [personaLoop_cons, Run.andThen_ok _ _ () hp]
    exact ih (fun q hq => h q (by simp [hq]))

/-! ## Validation and video resolution -/

theorem validateTask_ok (fields : TaskFields) (hp : personaRecordIds fields ≠ [])
    (hv : ¬ (fields.videoAttachment.isNone ∧ (truthy fields.videoUrl).isNone)) :
    validateTask fields = ⟨[], .ok ()⟩ := by
  have hlen : (personaRecordIds fields).length ≠ 0 := by simpa using hp
  unfold validateTask
  rw [if_neg hlen, if_neg hv]
  rfl

theorem validateTask_no_personas (fields : TaskFields) (hp : personaRecordIds fields = []) :
    validateTask fields = ⟨[], .error "未选择任何人物画像进行分析"⟩ := by
  unfold validateTask
  rw [if_pos (by simp [hp])]
  rfl

theorem validateTask_no_video (fields : TaskFields) (hp : personaRecordIds fields ≠ [])
    (ha : fields.videoAttachment = none) (hu : truthy fields.videoUrl = none) :
    validateTask fields = ⟨[], .error "未提供视频链接或上传视频文件"⟩ := by
  have hlen : (personaRecordIds fields).length ≠ 0 := by simpa using hp
  unfold validateTask
  rw [if_neg hlen, if_pos (by simp [ha, hu])]
  rfl

theorem fileToGenerativePart_calls (env : Env) (url : String) :
    (fileToGenerativePart env url).calls = [.fetch url] := by
  unfold fileToGenerativePart
  simp only [Run.bind_eq, Run.pure_eq, Run.andThen_calls]
  cases hf : env.fetch url with
  | error e => simp [Run.call]
  | ok response =>
    cases hok : response.ok with
    | false => simp [Run.call, Run.fail, hok]
    | true =>
      cases hb : response.buffer <;>
        simp [Run.call, Run.lift, Run.andThen, hb, Run.ret, hok]

theorem fileToGenerativePart_ok (env : Env) (url : String) (vp : VideoPart)
    (h : Downloads env url vp) : (fileToGenerativePart env url).result = .ok vp := by
  obtain ⟨response, bytes, hf, hok, hb, hvp⟩ := h
  simp [fileToGenerativePart, Run.andThen, Run.call, Run.lift, Run.ret, hf, hok, hb, hvp]

theorem resolveVideo_token (env : Env) (fields : TaskFields) (token : String)
    (h : firstFileToken fields.videoAttachment = some token) :
    resolveVideo env fields =
      Run.andThen (Run.call (.fileMeta token) (env.fileMeta token))
        (fileToGenerativePart env) := by
  simp [resolveVideo, h]

theorem resolveVideo_url (env : Env) (fields : TaskFields) (url : String)
    (h : firstFileToken fields.videoAttachment = none)
    (hu : truthy fields.videoUrl = some url) :
    resolveVideo env fields = fileToGenerativePart env url := by
  simp [resolveVideo, h, hu]

theorem resolveVideo_none (env : Env) (fields : TaskFields)
    (h : firstFileToken fields.videoAttachment = none)
    (hu : truthy fields.videoUrl = none) :
    resolveVideo env fields = ⟨[], .error "无法获取视频内容"⟩ := by
  simp [resolveVideo, h, hu, Run.fail]

/-- With a file token the calls are the metadata lookup and, when it answers, the download
of the URL it gave. -/
theorem resolveVideo_token_calls (env : Env) (fields : TaskFields) (token : String)
    (h : firstFileToken fields.videoAttachment = some token) :
    (resolveVideo env fields).calls =
      .fileMeta token :: (match env.fileMeta token with
        | .ok url => [.fetch url]
        | .error _ => []) := by
  rw [resolveVideo_token env fields token h, Run.andThen_calls]
  cases hm : env.fileMeta token <;> simp [Run.call, fileToGenerativePart_calls]

/-- Video resolution writes no status, creates no result and does not ask the model. -/
theorem resolveVideo_quiet (env : Env) (fields : TaskFields) :
    statusUpdates (resolveVideo env fields).calls = [] ∧
      createdResults (resolveVideo env fields).calls = [] ∧
      modelPrompts (resolveVideo env fields).calls = [] := by
  cases ht : firstFileToken fields.videoAttachment with
  | some token =>
    rw [resolveVideo_token_calls env fields token ht]
    cases env.fileMeta token <;>
      simp [statusUpdates, createdResults, modelPrompts, Call.status?, Call.created?,
        Call.prompt?]
  | none =>
    cases hu : truthy fields.videoUrl with
    | some url =>
      rw [resolveVideo_url env fields url ht hu, fileToGenerativePart_calls]
      simp [statusUpdates, createdResults, modelPrompts, Call.status?, Call.created?,
        Call.prompt?]
    | none =>
      rw [resolveVideo_none env fields ht hu]
      simp [statusUpdates, createdResults, modelPrompts]

theorem resolveVideo_ok (env : Env) (fields : TaskFields) (vp : VideoPart)
    (h : VideoAvailable env fields vp) : (resolveVideo env fields).result = .ok vp := by
  rcases h with ⟨token, url, ht, hm, hd⟩ | ⟨url, ht, hu, hd⟩
  · rw [resolveVideo_token env fields token ht, hm, Run.call_ok_andThen]
    exact fileToGenerativePart_ok env url vp hd
  · rw [resolveVideo_url env fields url ht hu]
    exact fileToGenerativePart_ok env url vp hd

/-- A task whose video was resolved passes the check on the video source. -/
theorem video_check_of_resolved (env : Env) (fields : TaskFields) (vp : VideoPart)
    (h : (resolveVideo env fields).result = .ok vp) :
    ¬ (fields.videoAttachment.isNone ∧ (truthy fields.videoUrl).isNone) := by
  rintro ⟨ha, hu⟩
  have ha2 : fields.videoAttachment = none := by simpa using ha
  have hu2 : truthy fields.videoUrl = none := by simpa using hu
  have ht : firstFileToken fields.videoAttachment = none := by simp [ha2, firstFileToken]
  rw [resolveVideo_none env fields ht hu2] at h
  simp at h

/-! ## The guarded section -/

/-- What follows the two first calls of the guarded section. -/
theorem guarded_start (v : Variant) (cfg : Config) (env : Env) (id : String)
    (fields : TaskFields)
    (hupd : env.update cfg.TABLE_ID_TASKS id .analyzing = .ok ())
    (hget : env.getTask cfg.TABLE_ID_TASKS id = .ok fields) :
    guarded v cfg env id =
      ⟨.update cfg.TABLE_ID_TASKS id .analyzing :: .get cfg.TABLE_ID_TASKS id ::
          (Run.andThen (validateTask fields) (fun _ =>
            Run.andThen (resolveVideo env fields) (fun videoPart =>
              Run.andThen (personaLoop v cfg env id videoPart (personaRecordIds fields))
                (fun _ => Run.call (.update cfg.TABLE_ID_TASKS id .completed)
                  (env.update cfg.TABLE_ID_TASKS id .completed))))).calls,
        (Run.andThen (validateTask fields) (fun _ =>
            Run.andThen (resolveVideo env fields) (fun videoPart =>
              Run.andThen (personaLoop v cfg env id videoPart (personaRecordIds fields))
                (fun _ => Run.call (.update cfg.TABLE_ID_TASKS id .completed)
                  (env.update cfg.TABLE_ID_TASKS id .completed))))).result⟩ := by
  unfold guarded
  simp only [Run.bind_eq, hupd, hget, Run.call_ok_andThen]

theorem guarded_update_error (v : Variant) (cfg : Config) (env : Env) (id e : String)
    (hupd : env.update cfg.TABLE_ID_TASKS id .analyzing = .error e) :
    guarded v cfg env id = ⟨[.update cfg.TABLE_ID_TASKS id .analyzing], .error e⟩ := by
  unfold guarded
  simp only [Run.bind_eq, hupd, Run.call_error_andThen]

theorem guarded_get_error (v : Variant) (cfg : Config) (env : Env) (id e : String)
    (hupd : env.update cfg.TABLE_ID_TASKS id .analyzing = .ok ())
    (hget : env.getTask cfg.TABLE_ID_TASKS id = .error e) :
    guarded v cfg env id =
      ⟨[.update cfg.TABLE_ID_TASKS id .analyzing, .get cfg.TABLE_ID_TASKS id],
        .error e⟩ := by
  unfold guarded
  simp only [Run.bind_eq, hupd, hget, Run.call_ok_andThen, Run.call_error_andThen]

theorem guarded_invalid (v : Variant) (cfg : Config) (env : Env) (id : String)
    (fields : TaskFields) (e : String)
    (hupd : env.update cfg.TABLE_ID_TASKS id .analyzing = .ok ())
    (hget : env.getTask cfg.TABLE_ID_TASKS id = .ok fields)
    (hval : validateTask fields = ⟨[], .error e⟩) :
    guarded v cfg env id =
      ⟨[.update cfg.TABLE_ID_TASKS id .analyzing, .get cfg.TABLE_ID_TASKS id],
        .error e⟩ := by
  rw [guarded_start v cfg env id fields hupd hget, hval]
  simp [Run.andThen]

theorem guarded_video_error (v : Variant) (cfg : Config) (env : Env) (id : String)
    (fields : TaskFields) (e : String)
    (hupd : env.update cfg.TABLE_ID_TASKS id .analyzing = .ok ())
    (hget : env.getTask cfg.TABLE_ID_TASKS id = .ok fields)
    (hval : validateTask fields = ⟨[], .ok ()⟩)
    (hvid : (resolveVideo env fields).result = .error e) :
    guarded v cfg env id =
      ⟨.update cfg.TABLE_ID_TASKS id .analyzing :: .get cfg.TABLE_ID_TASKS id ::
          (resolveVideo env fields).calls, .error e⟩ := by
  rw [guarded_start v cfg env id fields hupd hget, hval]
  simp [Run.andThen, hvid]

theorem guarded_loop (v : Variant) (cfg : Config) (env : Env) (id : String)
    (fields : TaskFields) (vp : VideoPart)
    (hupd : env.update cfg.TABLE_ID_TASKS id .analyzing = .ok ())
    (hget : env.getTask cfg.TABLE_ID_TASKS id = .ok fields)
    (hval : validateTask fields = ⟨[], .ok ()⟩)
    (hvid : (resolveVideo env fields).result = .ok vp) :
    guarded v cfg env id =
      ⟨.update cfg.TABLE_ID_TASKS id .analyzing :: .get cfg.TABLE_ID_TASKS id ::
          ((resolveVideo env fields).calls ++
            (Run.andThen (personaLoop v cfg env id vp (personaRecordIds fields))
              (fun _ => Run.call (.update cfg.TABLE_ID_TASKS id .completed)
                (env.update cfg.TABLE_ID_TASKS id .completed))).calls),
        (Run.andThen (personaLoop v cfg env id vp (personaRecordIds fields))
            (fun _ => Run.call (.update cfg.TABLE_ID_TASKS id .completed)
              (env.update cfg.TABLE_ID_TASKS id .completed))).result⟩ := by
  rw [guarded_start v cfg env id fields hupd hget, hval]
  simp [Run.andThen, hvid]

theorem validateTask_calls (fields : TaskFields) : (validateTask fields).calls = [] := by
  unfold validateTask
  split
  · rfl
  · split <;> rfl

theorem validateTask_of_result (fields : TaskFields) (r : Except String Unit)
    (h : (validateTask fields).result = r) : validateTask fields = ⟨[], r⟩ := by
  have hc := validateTask_calls fields
  cases hv : validateTask fields with
  | mk calls result =>
    rw [hv] at h hc
    simp only at h hc
    rw [h, hc]

/-! ## The handler around the guarded section -/

theorem analyze_ok (v : Variant) (cfg : Config) (env : Env) (record_id : Option String)
    (id : String) (hid : truthy record_id = some id)
    (h : (guarded v cfg env id).result = .ok ()) :
    analyze v cfg env record_id =
      ⟨(guarded v cfg env id).calls, [],
        .responded ⟨200, .success true "所有视角的分析均已完成"⟩⟩ := by
  simp [analyze, hid, h]

theorem analyze_error (v : Variant) (cfg : Config) (env : Env) (record_id : Option String)
    (id e : String) (hid : truthy record_id = some id)
    (h : (guarded v cfg env id).result = .error e) :
    analyze v cfg env record_id =
      ⟨(guarded v cfg env id).calls ++ [.update cfg.TABLE_ID_TASKS id .failed],
        catchLogs e (env.update cfg.TABLE_ID_TASKS id .failed),
        .responded ⟨500, .error e⟩⟩ := by
  simp [analyze, hid, h]

/-- A guarded section that ends without error went through every step. -/
theorem guarded_ok (v : Variant) (cfg : Config) (env : Env) (id : String)
    (fields : TaskFields)
    (hget : env.getTask cfg.TABLE_ID_TASKS id = .ok fields)
    (h : (guarded v cfg env id).result = .ok ()) :
    ∃ vp, (resolveVideo env fields).result = .ok vp ∧
      (personaLoop v cfg env id vp (personaRecordIds fields)).result = .ok () ∧
      (guarded v cfg env id).calls =
        .update cfg.TABLE_ID_TASKS id .analyzing :: .get cfg.TABLE_ID_TASKS id ::
          ((resolveVideo env fields).calls ++
            ((personaLoop v cfg env id vp (personaRecordIds fields)).calls ++
              [.update cfg.TABLE_ID_TASKS id .completed])) := by
  cases hupd : env.update cfg.TABLE_ID_TASKS id .analyzing with
  | error e => rw [guarded_update_error v cfg env id e hupd] at h; simp at h
  | ok u =>
    rw [guarded_start v cfg env id fields hupd hget] at h ⊢
    simp only at h
    obtain ⟨a, hval, h2⟩ := Run.andThen_result_ok _ _ _ h
    obtain ⟨vp, hvid, h3⟩ := Run.andThen_result_ok _ _ _ h2
    obtain ⟨b, hloop, _⟩ := Run.andThen_result_ok _ _ _ h3
    refine ⟨vp, hvid, hloop, ?_⟩
    rw [validateTask_of_result fields _ hval]
    simp [Run.andThen, hvid, hloop, Run.call]

/-- The statuses written inside the guarded section: the first alone, or the first and
`completed`. -/
theorem guarded_statuses (v : Variant) (cfg : Config) (env : Env) (id : String) :
    statusUpdates (guarded v cfg env id).calls = [.analyzing] ∨
      statusUpdates (guarded v cfg env id).calls = [.analyzing, .completed] := by
  cases hupd : env.update cfg.TABLE_ID_TASKS id .analyzing with
  | error e =>
    rw [guarded_update_error v cfg env id e hupd]
    simp [statusUpdates, Call.status?]
  | ok u =>
    cases hget : env.getTask cfg.TABLE_ID_TASKS id with
    | error e =>
      rw [guarded_get_error v cfg env id e hupd hget]
      simp [statusUpdates, Call.status?]
    | ok fields =>
      cases hval : (validateTask fields).result with
      | error e =>
        rw [guarded_invalid v cfg env id fields e hupd hget
          (validateTask_of_result fields _ hval)]
        simp [statusUpdates, Call.status?]
      | ok a =>
        have hV := (resolveVideo_quiet env fields).1
        cases hvid : (resolveVideo env fields).result with
        | error e =>
          rw [guarded_video_error v cfg env id fields e hupd hget
            (validateTask_of_result fields _ hval) hvid]
          simp only [statusUpdates] at hV
          simp [statusUpdates, Call.status?, hV]
        | ok vp =>
          have hL := (personaLoop_quiet v cfg env id vp (personaRecordIds fields)).1
          rw [guarded_loop v cfg env id fields vp hupd hget
            (validateTask_of_result fields _ hval) hvid, Run.andThen_calls]
          simp only [statusUpdates] at hV hL
          cases (personaLoop v cfg env id vp (personaRecordIds fields)).result <;>
            simp [statusUpdates, Call.status?, hV, hL, Run.call]

/-- The guarded section up to a persona whose analysis throws, when the video was resolved
and the personas before it went through. -/
theorem guarded_abort (v : Variant) (cfg : Config) (env : Env) (id : String)
    (fields : TaskFields) (vp : VideoPart) (pre post : List String) (p e : String)
    (c : List Call)
    (hupd : env.update cfg.TABLE_ID_TASKS id .analyzing = .ok ())
    (hget : env.getTask cfg.TABLE_ID_TASKS id = .ok fields)
    (hps : personaRecordIds fields = pre ++ p :: post)
    (hvid : (resolveVideo env fields).result = .ok vp)
    (hpre : (personaLoop v cfg env id vp pre).result = .ok ())
    (hp : analysePersona v cfg env id vp p = ⟨c, .error e⟩) :
    guarded v cfg env id =
      ⟨.update cfg.TABLE_ID_TASKS id .analyzing :: .get cfg.TABLE_ID_TASKS id ::
          ((resolveVideo env fields).calls ++ ((personaLoop v cfg env id vp pre).calls ++ c)),
        .error e⟩ := by
  have hne : personaRecordIds fields ≠ [] := by simp [hps]
  have hval := validateTask_ok fields hne (video_check_of_resolved env fields vp hvid)
  rw [guarded_loop v cfg env id fields vp hupd hget hval hvid, hps,
    personaLoop_append v cfg env id vp pre (p :: post) hpre, personaLoop_cons, hp]
  simp [Run.andThen]

/-- The status update of the `catch` block has no part in the guarded section: replacing
its outcome leaves the guarded section as it is. -/
theorem guarded_withFailedUpdate (v : Variant) (cfg : Config) (env : Env) (id : String)
    (r : Except String Unit) :
    guarded v cfg (env.withFailedUpdate r) id = guarded v cfg env id := by
  have hloop : ∀ vp ps, personaLoop v cfg (env.withFailedUpdate r) id vp ps =
      personaLoop v cfg env id vp ps := by
    intro vp ps
    induction ps with
    | nil => rfl
    | cons p rest ih =>
      rw [personaLoop_cons, personaLoop_cons, ih]
      rfl
  unfold guarded
  simp only [hloop]
  rfl

/-! ## The two handlers as instances of `analyze` -/

theorem postAnalyze_eq (cfg : Config) (env : Env) (req : Request) (body : RequestBody)
    (hb : req.body = some body) :
    postAnalyze cfg env req = analyze indexVariant cfg env body.record_id := by
  simp [postAnalyze, hb]

theorem handler_post (cfg : Config) (env : Env) (req : Request) (body : RequestBody)
    (hc : env.cors req = .next) (hm : req.method = "POST") (hb : req.body = some body) :
    handler cfg env req = analyze (analyzeVariant cfg) cfg env body.record_id := by
  simp [handler, hc, hm, hb]

/-- Before the identifier is read no call is issued: whatever the request, a run of the
handler of `api/analyze.js` is a run of `analyze` or has no call. -/
theorem handler_calls (cfg : Config) (env : Env) (req : Request) :
    (handler cfg env req).calls = [] ∨
      ∃ body, req.body = some body ∧
        handler cfg env req = analyze (analyzeVariant cfg) cfg env body.record_id := by
  unfold handler
  cases env.cors req with
  | ended => exact Or.inl rfl
  | failed e => exact Or.inl rfl
  | next =>
    by_cases hm : req.method = "POST"
    · cases hb : req.body with
      | none => exact Or.inl (by simp [hm])
      | some body => exact Or.inr ⟨body, rfl, by simp [hm]⟩
    · exact Or.inl (by simp [hm])

theorem analyze_no_identifier (v : Variant) (cfg : Config) (env : Env)
    (record_id : Option String) (h : truthy record_id = none) :
    analyze v cfg env record_id =
      ⟨[], [], .responded ⟨400, .error "请求体中必须包含 record_id"⟩⟩ := by
  simp [analyze, h]

/-! ## The extraction pattern: first opening brace to last closing brace -/

theorem exists_last_split (c : Char) (l : List Char) (h : c ∈ l) :
    ∃ mid suf, l = mid ++ c :: suf ∧ c ∉ suf := by
  have hr : c ∈ l.reverse := by simpa using h
  obtain ⟨as, bs, e, hn⟩ := List.eq_append_cons_of_mem hr
  refine ⟨bs.reverse, as.reverse, ?_, by simpa using hn⟩
  have := congrArg List.reverse e
  simpa using this

/-- C9. The match of `/\{[\s\S]*\}/` on a text. For a text written as `pre`, an opening
brace, `mid`, a closing brace and `suf`, with no opening brace in `pre` and no closing brace
in `suf` (so the braces shown are the first opening and the last closing brace of the
text), the match is the opening brace, `mid` and the closing brace: it starts at the first
opening brace and ends at the last closing brace. Every text is either of that form, or has
no opening brace, or has no closing brace after its first opening brace, and in the last two
cases there is no match. -/
theorem jsonMatch_first_open_to_last_close :
    (∀ pre mid suf : List Char, openBrace ∉ pre → closeBrace ∉ suf →
      jsonMatch ⟨pre ++ openBrace :: (mid ++ closeBrace :: suf)⟩ =
        some ⟨openBrace :: (mid ++ [closeBrace])⟩) ∧
    (∀ text : String,
      (∃ pre mid suf, openBrace ∉ pre ∧ closeBrace ∉ suf ∧
          text.data = pre ++ openBrace :: (mid ++ closeBrace :: suf) ∧
          jsonMatch text = some ⟨openBrace :: (mid ++ [closeBrace])⟩) ∨
      ((openBrace ∉ text.data ∨
          ∃ pre rest, openBrace ∉ pre ∧ closeBrace ∉ rest ∧
            text.data = pre ++ openBrace :: rest) ∧
        jsonMatch text = none)) := by
  refine ⟨?_, ?_⟩
  · intro pre mid suf hpre hsuf
    simp [jsonMatch, regexSearch_span pre mid suf hpre hsuf]
  · intro text
    by_cases hopen : openBrace ∈ text.data
    · obtain ⟨pre, rest, e, hpre⟩ := List.eq_append_cons_of_mem hopen
      by_cases hclose : closeBrace ∈ rest
      · obtain ⟨mid, suf, e2, hsuf⟩ := exists_last_split closeBrace rest hclose
        refine Or.inl ⟨pre, mid, suf, hpre, hsuf, by rw [e, e2], ?_⟩
        simp [jsonMatch, e, e2, regexSearch_span pre mid suf hpre hsuf]
      · refine Or.inr ⟨Or.inr ⟨pre, rest, hpre, hclose, e⟩, ?_⟩
        have hs : regexSearch text.data = none := by
          rw [e, regexSearch_skip pre _ hpre]
          have hrest : regexSearch rest = none := by
            apply regexSearch_none
            intro a m b h
            exact hclose (by simp [h])
          simp [regexSearch, matchHere, matchStarClose_none_of_not_mem rest hclose, hrest]
        simp [jsonMatch, hs]
    · refine Or.inr ⟨Or.inl hopen, ?_⟩
      have hs : regexSearch text.data = none := by
        apply regexSearch_none
        intro a m b h
        exact hopen (by simp [h])
      simp [jsonMatch, hs]

/-- The object of the sample answer is extracted from between the prose around it. -/
theorem jsonMatch_first_open_to_last_close_witness :
    jsonMatch ⟨"Here: ".data ++ openBrace ::
        ("\"overall_summary\": \"ok\"".data ++ closeBrace :: " done".data)⟩ =
      some ⟨openBrace :: ("\"overall_summary\": \"ok\"".data ++ [closeBrace])⟩ :=
  jsonMatch_first_open_to_last_close.1 "Here: ".data "\"overall_summary\": \"ok\"".data
    " done".data (by decide) (by decide)

/-! ## Requests without an identifier -/

/-- C1, the claim as stated fails: a `POST` request sent with no body carries no identifier,
and on it the handler of `api/analyze.js` throws at `const { record_id } = req.body`, before
the `try`; its promise rejects and no response with status 400 is sent. -/
theorem handler_post_without_body_rejects :
    handler sampleConfig sampleEnv { method := "POST", body := none } =
      ⟨[], [], .rejected sampleEnv.bodyTypeError⟩ ∧
    (handler sampleConfig sampleEnv { method := "POST", body := none }).outcome ≠
      .responded ⟨400, .error "请求体中必须包含 record_id"⟩ := by
  decide

/-- C1 as amended. For a request whose body is present and carries no identifier
(`record_id` absent or falsy), the route of `api/index.js` answers 400 with the error body,
and the handler of `api/analyze.js` answers 400 with the error body when the `cors`
middleware calls its callback without error and the method is `POST`; these runs have no
external call. And for every request without an identifier, the body absent or carrying
none, neither handler issues any external call. -/
theorem missing_identifier_no_external_call (cfg : Config) (env : Env) (req : Request) :
    (∀ body, req.body = some body → truthy body.record_id = none →
      postAnalyze cfg env req =
          ⟨[], [], .responded ⟨400, .error "请求体中必须包含 record_id"⟩⟩ ∧
        (env.cors req = .next → req.method = "POST" →
          handler cfg env req =
            ⟨[], [], .responded ⟨400, .error "请求体中必须包含 record_id"⟩⟩)) ∧
      ((∀ body, req.body = some body → truthy body.record_id = none) →
        (postAnalyze cfg env req).calls = [] ∧ (handler cfg env req).calls = []) := by
  refine ⟨?_, ?_⟩
  · intro body hb h
    refine ⟨?_, ?_⟩
    · rw [postAnalyze_eq cfg env req body hb, analyze_no_identifier _ cfg env _ h]
    · intro hc hm
      rw [handler_post cfg env req body hc hm hb, analyze_no_identifier _ cfg env _ h]
  · intro h
    refine ⟨?_, ?_⟩
    · cases hb : req.body with
      | none => simp [postAnalyze, hb]
      | some body =>
        rw [postAnalyze_eq cfg env req body hb, analyze_no_identifier _ cfg env _ (h body hb)]
    · rcases handler_calls cfg env req with hnone | ⟨body, hb, hrun⟩
      · exact hnone
      · rw [hrun, analyze_no_identifier _ cfg env _ (h body hb)]

/-- A `POST` request whose body is the empty object, on the sample services. -/
theorem missing_identifier_no_external_call_witness :
    postAnalyze sampleConfig sampleEnv { method := "POST", body := some { record_id := none } } =
        ⟨[], [], .responded ⟨400, .error "请求体中必须包含 record_id"⟩⟩ ∧
      handler sampleConfig sampleEnv { method := "POST", body := some { record_id := none } } =
        ⟨[], [], .responded ⟨400, .error "请求体中必须包含 record_id"⟩⟩ :=
  have h := (missing_identifier_no_external_call sampleConfig sampleEnv
    { method := "POST", body := some { record_id := none } }).1 { record_id := none } rfl rfl
  ⟨h.1, h.2 rfl rfl⟩

/-! ## Successful runs -/

/-- C2. In a run in which the task has at least one persona and a video source, no external
call fails and every answer of the model has a match that parses, the response is 200 with
`success: true`, the statuses written are `analyzing` then `completed` and no other, the
first external call is the update to `analyzing`, and the update to `completed` is the last
call, after the calls of the loop. Both handlers are instances, for the identifier read
from the body of the request: `postAnalyze` is `analyze` with `indexVariant`, and `handler`
on a `POST` request is `analyze` with `analyzeVariant`. -/
theorem successful_run_updates_status_twice (v : Variant) (cfg : Config) (env : Env)
    (record_id : Option String) (id : String) (fields : TaskFields) (videoPart : VideoPart)
    (hid : truthy record_id = some id)
    (hupd : env.update cfg.TABLE_ID_TASKS id .analyzing = .ok ())
    (hget : env.getTask cfg.TABLE_ID_TASKS id = .ok fields)
    (hpers : personaRecordIds fields ≠ [])
    (hvid : VideoAvailable env fields videoPart)
    (hloop : ∀ p ∈ personaRecordIds fields, PersonaSucceeds v cfg env id videoPart p)
    (hdone : env.update cfg.TABLE_ID_TASKS id .completed = .ok ()) :
    (analyze v cfg env record_id).outcome =
        .responded ⟨200, .success true "所有视角的分析均已完成"⟩ ∧
      statusUpdates (analyze v cfg env record_id).calls = [.analyzing, .completed] ∧
      (analyze v cfg env record_id).calls.head? =
        some (.update cfg.TABLE_ID_TASKS id .analyzing) ∧
      (analyze v cfg env record_id).calls =
        .update cfg.TABLE_ID_TASKS id .analyzing :: .get cfg.TABLE_ID_TASKS id ::
          ((resolveVideo env fields).calls ++
            ((personaLoop v cfg env id videoPart (personaRecordIds fields)).calls ++
              [.update cfg.TABLE_ID_TASKS id .completed])) := by
  have hV := resolveVideo_ok env fields videoPart hvid
  have hL := personaLoop_succeeds v cfg env id videoPart (personaRecordIds fields) hloop
  have hval := validateTask_ok fields hpers (video_check_of_resolved env fields videoPart hV)
  have hg := guarded_loop v cfg env id fields videoPart hupd hget hval hV
  rw [Run.andThen_ok _ _ () hL] at hg
  have hres : (guarded v cfg env id).result = .ok () := by rw [hg]; exact hdone
  have hcalls : (analyze v cfg env record_id).calls =
      .update cfg.TABLE_ID_TASKS id .analyzing :: .get cfg.TABLE_ID_TASKS id ::
        ((resolveVideo env fields).calls ++
          ((personaLoop v cfg env id videoPart (personaRecordIds fields)).calls ++
            [.update cfg.TABLE_ID_TASKS id .completed])) := by
    rw [analyze_ok v cfg env record_id id hid hres, hg]
    rfl
  refine ⟨by rw [analyze_ok v cfg env record_id id hid hres], ?_, by rw [hcalls]; rfl, hcalls⟩
  have q1 := (resolveVideo_quiet env fields).1
  have q2 := (personaLoop_quiet v cfg env id videoPart (personaRecordIds fields)).1
  rw [hcalls]
  simp only [statusUpdates] at q1 q2
  simp [statusUpdates, Call.status?, q1, q2]

set_option maxRecDepth 100000 in
/-- The sample task on the sample services, through the route of `api/index.js`. -/
theorem successful_run_updates_status_twice_witness :
    (postAnalyze sampleConfig sampleEnv sampleRequest).outcome =
        .responded ⟨200, .success true "所有视角的分析均已完成"⟩ ∧
      statusUpdates (postAnalyze sampleConfig sampleEnv sampleRequest).calls =
        [.analyzing, .completed] :=
  have h := successful_run_updates_status_twice indexVariant sampleConfig sampleEnv
    (some "rec1") "rec1" sampleFields sampleVideo rfl rfl rfl (by decide)
    (Or.inl ⟨"boxTok1", "https://drive.example/dl/1", rfl, rfl,
      ⟨_, [1, 2, 3], rfl, rfl, rfl, rfl⟩⟩)
    (by
      intro p hp
      have hp3 : p = "p1" ∨ p = "p2" ∨ p = "p3" := by
        simpa [personaRecordIds, sampleFields] using hp
      rcases hp3 with rfl | rfl | rfl
      · exact ⟨some "宝妈", rfl, fun _ _ =>
          ⟨sampleAnswer, "\x7b\"overall_summary\": \"ok\"\x7d", _, rfl, rfl, rfl, rfl⟩⟩
      · exact ⟨none, rfl, fun _ hd => by simp [truthy] at hd⟩
      · exact ⟨some "学生", rfl, fun _ _ =>
          ⟨sampleAnswer, "\x7b\"overall_summary\": \"ok\"\x7d", _, rfl, rfl, rfl, rfl⟩⟩)
    rfl
  ⟨h.1, h.2.1⟩

/-- C3. In a successful run the result records created are, in order, those of the personas
of the task that have a description, each linking the task of the request and the persona;
the model is asked exactly once for each of them, with the prompt of its description, so a
persona without description gives no record and no model call, and the run still succeeds.
When exactly one persona of the list has no description the records are those of the others,
one fewer than the personas. The pass of the loop for a persona without description is the
read of its record and nothing else, and it does not throw. -/
theorem one_result_per_described_persona (v : Variant) (cfg : Config) (env : Env)
    (record_id : Option String) (id : String) (fields : TaskFields)
    (hid : truthy record_id = some id)
    (hget : env.getTask cfg.TABLE_ID_TASKS id = .ok fields)
    (hok : (analyze v cfg env record_id).outcome =
      .responded ⟨200, .success true "所有视角的分析均已完成"⟩) :
    createdResults (analyze v cfg env record_id).calls =
        (describedPersonas cfg env (personaRecordIds fields)).map (fun p => (id, p)) ∧
      modelPrompts (analyze v cfg env record_id).calls =
        (personaRecordIds fields).filterMap
          (fun p => (personaDescription cfg env p).map v.prompt) ∧
      (∀ pre q post, personaRecordIds fields = pre ++ q :: post →
        personaDescription cfg env q = none →
        (∀ p ∈ pre ++ post, (personaDescription cfg env p).isSome) →
        createdResults (analyze v cfg env record_id).calls =
            (pre ++ post).map (fun p => (id, p)) ∧
          (createdResults (analyze v cfg env record_id).calls).length + 1 =
            (personaRecordIds fields).length) ∧
      (∀ videoPart q d, env.getPersona cfg.TABLE_ID_PERSONAS q = .ok d → truthy d = none →
        analysePersona v cfg env id videoPart q =
          ⟨[.get cfg.TABLE_ID_PERSONAS q], .ok ()⟩) := by
  have hres : (guarded v cfg env id).result = .ok () := by
    cases hg : (guarded v cfg env id).result with
    | ok u => rfl
    | error e => rw [analyze_error v cfg env record_id id e hid hg] at hok; simp at hok
  obtain ⟨vp, _, hL, hcalls⟩ := guarded_ok v cfg env id fields hget hres
  obtain ⟨l1, l2⟩ := personaLoop_ok v cfg env id vp (personaRecordIds fields) hL
  obtain ⟨_, q2, q3⟩ := resolveVideo_quiet env fields
  have hc : createdResults (analyze v cfg env record_id).calls =
      (describedPersonas cfg env (personaRecordIds fields)).map (fun p => (id, p)) := by
    rw [analyze_ok v cfg env record_id id hid hres]
    simp only [hcalls]
    simp only [createdResults] at q2 l1
    simp [createdResults, Call.created?, q2, l1]
  refine ⟨hc, ?_, ?_, fun videoPart q d hq hd =>
    analysePersona_skip v cfg env id videoPart q d hq hd⟩
  · rw [analyze_ok v cfg env record_id id hid hres]
    simp only [hcalls]
    simp only [modelPrompts] at q3 l2
    simp [modelPrompts, Call.prompt?, q3, l2]
  · intro pre q post hps hq hothers
    have hd : describedPersonas cfg env (personaRecordIds fields) = pre ++ post := by
      have hpre : pre.filter (fun p => (personaDescription cfg env p).isSome) = pre :=
        List.filter_eq_self.2 (fun p hp => hothers p (by simp [hp]))
      have hpost : post.filter (fun p => (personaDescription cfg env p).isSome) = post :=
        List.filter_eq_self.2 (fun p hp => hothers p (by simp [hp]))
      simp [describedPersonas, hps, List.filter_append, List.filter_cons, hq, hpre, hpost]
    rw [hc, hd, hps]
    simp
    omega

set_option maxRecDepth 100000 in
/-- The sample task has three personas of which `p2` has no description: two records. -/
theorem one_result_per_described_persona_witness :
    createdResults (postAnalyze sampleConfig sampleEnv sampleRequest).calls =
        [("rec1", "p1"), ("rec1", "p3")] ∧
      (createdResults (postAnalyze sampleConfig sampleEnv sampleRequest).calls).length + 1 =
        (personaRecordIds sampleFields).length :=
  ((one_result_per_described_persona indexVariant sampleConfig sampleEnv
    (some "rec1") "rec1" sampleFields rfl rfl rfl).2.2.1
      ["p1"] "p2" ["p3"] rfl rfl (by decide))

/-! ## Video resolution -/

/-- After the video step the handler issues no metadata lookup and no download: what
follows the calls of video resolution in a run that passed validation. -/
theorem analyze_after_video (v : Variant) (cfg : Config) (env : Env)
    (record_id : Option String) (id : String) (fields : TaskFields)
    (hid : truthy record_id = some id)
    (hupd : env.update cfg.TABLE_ID_TASKS id .analyzing = .ok ())
    (hget : env.getTask cfg.TABLE_ID_TASKS id = .ok fields)
    (hval : validateTask fields = ⟨[], .ok ()⟩) :
    ∃ rest, (analyze v cfg env record_id).calls =
        .update cfg.TABLE_ID_TASKS id .analyzing :: .get cfg.TABLE_ID_TASKS id ::
          ((resolveVideo env fields).calls ++ rest) ∧
      metaLookups rest = [] ∧ downloads rest = [] := by
  cases hvid : (resolveVideo env fields).result with
  | error e =>
    have hg := guarded_video_error v cfg env id fields e hupd hget hval hvid
    have hres : (guarded v cfg env id).result = .error e := by rw [hg]
    refine ⟨[.update cfg.TABLE_ID_TASKS id .failed], ?_, by simp [metaLookups, Call.token?],
      by simp [downloads, Call.url?]⟩
    rw [analyze_error v cfg env record_id id e hid hres, hg]
    simp
  | ok vp =>
    have hg := guarded_loop v cfg env id fields vp hupd hget hval hvid
    obtain ⟨_, q2, q3⟩ := personaLoop_quiet v cfg env id vp (personaRecordIds fields)
    simp only [metaLookups, downloads] at q2 q3
    have hT : metaLookups (Run.andThen (personaLoop v cfg env id vp (personaRecordIds fields))
          (fun _ => Run.call (.update cfg.TABLE_ID_TASKS id .completed)
            (env.update cfg.TABLE_ID_TASKS id .completed))).calls = [] ∧
        downloads (Run.andThen (personaLoop v cfg env id vp (personaRecordIds fields))
          (fun _ => Run.call (.update cfg.TABLE_ID_TASKS id .completed)
            (env.update cfg.TABLE_ID_TASKS id .completed))).calls = [] := by
      rw [Run.andThen_calls]
      cases (personaLoop v cfg env id vp (personaRecordIds fields)).result <;>
        simp [metaLookups, downloads, q2, q3, Run.call, Call.token?, Call.url?]
    cases hres : (guarded v cfg env id).result with
    | ok u =>
      refine ⟨_, ?_, hT.1, hT.2⟩
      rw [analyze_ok v cfg env record_id id hid hres, hg]
    | error e =>
      refine ⟨(Run.andThen (personaLoop v cfg env id vp (personaRecordIds fields))
          (fun _ => Run.call (.update cfg.TABLE_ID_TASKS id .completed)
            (env.update cfg.TABLE_ID_TASKS id .completed))).calls ++
          [.update cfg.TABLE_ID_TASKS id .failed], ?_, ?_, ?_⟩
      · rw [analyze_error v cfg env record_id id e hid hres, hg]
        simp
      · simp only [metaLookups, List.filterMap_append] at hT ⊢
        simp [hT.1, Call.token?]
      · simp only [downloads, List.filterMap_append] at hT ⊢
        simp [hT.2, Call.url?]

/-- C4. In a run that reaches video resolution (identifier present, status set, task read,
at least one persona): when the task has an attachment with a file token, whether or not it
also has a link, the third call is the metadata lookup of that token, it is the only lookup
of the run, and the only download is that of the URL the lookup returned, placed right after
the lookup (there is none when the lookup fails), so the link is not fetched as such; when
the task has no attachment with a file token and has a link, the third call is the download
of the link, it is the only download, and there is no metadata lookup. -/
theorem attachment_preferred_over_link (v : Variant) (cfg : Config) (env : Env)
    (record_id : Option String) (id : String) (fields : TaskFields)
    (hid : truthy record_id = some id)
    (hupd : env.update cfg.TABLE_ID_TASKS id .analyzing = .ok ())
    (hget : env.getTask cfg.TABLE_ID_TASKS id = .ok fields)
    (hpers : personaRecordIds fields ≠ []) :
    (∀ token, firstFileToken fields.videoAttachment = some token →
      (∃ rest, (analyze v cfg env record_id).calls =
          .update cfg.TABLE_ID_TASKS id .analyzing :: .get cfg.TABLE_ID_TASKS id ::
            .fileMeta token ::
              ((match env.fileMeta token with
                | .ok url => [.fetch url]
                | .error _ => []) ++ rest) ∧
        metaLookups rest = [] ∧ downloads rest = []) ∧
      metaLookups (analyze v cfg env record_id).calls = [token] ∧
      downloads (analyze v cfg env record_id).calls =
        (match env.fileMeta token with
          | .ok url => [url]
          | .error _ => [])) ∧
    (∀ url, firstFileToken fields.videoAttachment = none →
      truthy fields.videoUrl = some url →
      (∃ rest, (analyze v cfg env record_id).calls =
          .update cfg.TABLE_ID_TASKS id .analyzing :: .get cfg.TABLE_ID_TASKS id ::
            .fetch url :: rest ∧
        metaLookups rest = [] ∧ downloads rest = []) ∧
      metaLookups (analyze v cfg env record_id).calls = [] ∧
      downloads (analyze v cfg env record_id).calls = [url]) := by
  refine ⟨?_, ?_⟩
  · intro token ht
    have hcheck : ¬ (fields.videoAttachment.isNone ∧ (truthy fields.videoUrl).isNone) := by
      rintro ⟨ha, _⟩
      have ha2 : fields.videoAttachment = none := by simpa using ha
      simp [ha2, firstFileToken] at ht
    obtain ⟨rest, hcalls, m, d⟩ := analyze_after_video v cfg env record_id id fields hid hupd
      hget (validateTask_ok fields hpers hcheck)
    rw [resolveVideo_token_calls env fields token ht] at hcalls
    simp only [metaLookups, downloads] at m d
    refine ⟨⟨rest, by simpa using hcalls, m, d⟩, ?_, ?_⟩
    · rw [hcalls]
      cases env.fileMeta token <;> simp [metaLookups, Call.token?, m]
    · rw [hcalls]
      cases env.fileMeta token <;> simp [downloads, Call.url?, d]
  · intro url ht hu
    have hcheck : ¬ (fields.videoAttachment.isNone ∧ (truthy fields.videoUrl).isNone) := by
      rintro ⟨_, hn⟩
      simp [hu] at hn
    obtain ⟨rest, hcalls, m, d⟩ := analyze_after_video v cfg env record_id id fields hid hupd
      hget (validateTask_ok fields hpers hcheck)
    rw [resolveVideo_url env fields url ht hu, fileToGenerativePart_calls] at hcalls
    simp only [metaLookups, downloads] at m d
    refine ⟨⟨rest, by simpa using hcalls, m, d⟩, ?_, ?_⟩
    · rw [hcalls]
      simp [metaLookups, Call.token?, m]
    · rw [hcalls]
      simp [downloads, Call.url?, d]

set_option maxRecDepth 100000 in
/-- The sample task has an attachment and a link: the attachment is looked up and the URL
of the lookup is fetched; the same task without the attachment has its link fetched. -/
theorem attachment_preferred_over_link_witness :
    (metaLookups (postAnalyze sampleConfig sampleEnv sampleRequest).calls = ["boxTok1"] ∧
      downloads (postAnalyze sampleConfig sampleEnv sampleRequest).calls =
        ["https://drive.example/dl/1"]) ∧
    (metaLookups (postAnalyze sampleConfig linkOnlyEnv sampleRequest).calls = [] ∧
      downloads (postAnalyze sampleConfig linkOnlyEnv sampleRequest).calls =
        ["https://video.example/a.mp4"]) :=
  ⟨((attachment_preferred_over_link indexVariant sampleConfig sampleEnv
      (some "rec1") "rec1" sampleFields rfl rfl rfl (by decide)).1
        "boxTok1" rfl).2,
    ((attachment_preferred_over_link indexVariant sampleConfig linkOnlyEnv
      (some "rec1") "rec1" { sampleFields with videoAttachment := none }
        rfl rfl rfl (by decide)).2 "https://video.example/a.mp4" rfl rfl).2⟩

/-! ## Tasks that fail validation -/

/-- C5. For a task that is read after the status was set and that has no persona selected,
or has neither an attachment with a file token nor a link, the calls of the run are exactly
the update to `analyzing`, the read of the task and the update to `failed`; the response
is 500 with the message of the error thrown, which names what is missing; no result record
is created and there is no download, metadata lookup or model call. -/
theorem invalid_task_marked_failed (v : Variant) (cfg : Config) (env : Env)
    (record_id : Option String) (id : String) (fields : TaskFields)
    (hid : truthy record_id = some id)
    (hupd : env.update cfg.TABLE_ID_TASKS id .analyzing = .ok ())
    (hget : env.getTask cfg.TABLE_ID_TASKS id = .ok fields)
    (h : personaRecordIds fields = [] ∨
      (firstFileToken fields.videoAttachment = none ∧ truthy fields.videoUrl = none)) :
    (analyze v cfg env record_id).calls =
        [.update cfg.TABLE_ID_TASKS id .analyzing, .get cfg.TABLE_ID_TASKS id,
          .update cfg.TABLE_ID_TASKS id .failed] ∧
      (analyze v cfg env record_id).outcome =
        .responded ⟨500, .error
          (if personaRecordIds fields = [] then "未选择任何人物画像进行分析"
           else if fields.videoAttachment = none then "未提供视频链接或上传视频文件"
           else "无法获取视频内容")⟩ ∧
      statusUpdates (analyze v cfg env record_id).calls = [.analyzing, .failed] ∧
      createdResults (analyze v cfg env record_id).calls = [] ∧
      downloads (analyze v cfg env record_id).calls = [] ∧
      metaLookups (analyze v cfg env record_id).calls = [] ∧
      modelPrompts (analyze v cfg env record_id).calls = [] := by
  have key : ∃ e, guarded v cfg env id =
        ⟨[.update cfg.TABLE_ID_TASKS id .analyzing, .get cfg.TABLE_ID_TASKS id], .error e⟩ ∧
      e = (if personaRecordIds fields = [] then "未选择任何人物画像进行分析"
           else if fields.videoAttachment = none then "未提供视频链接或上传视频文件"
           else "无法获取视频内容") := by
    by_cases hp : personaRecordIds fields = []
    · exact ⟨_, guarded_invalid v cfg env id fields _ hupd hget
        (validateTask_no_personas fields hp), by simp [hp]⟩
    · obtain ⟨ht, hu⟩ := h.resolve_left hp
      by_cases ha : fields.videoAttachment = none
      · exact ⟨_, guarded_invalid v cfg env id fields _ hupd hget
          (validateTask_no_video fields hp ha hu), by simp [hp, ha]⟩
      · have hcheck : ¬ (fields.videoAttachment.isNone ∧ (truthy fields.videoUrl).isNone) := by
          rintro ⟨hn, _⟩
          exact ha (by simpa using hn)
        have hv := resolveVideo_none env fields ht hu
        have hg := guarded_video_error v cfg env id fields "无法获取视频内容" hupd hget
          (validateTask_ok fields hp hcheck) (by rw [hv])
        rw [hv] at hg
        exact ⟨_, hg, by simp [hp, ha]⟩
  obtain ⟨e, hg, he⟩ := key
  have hres : (guarded v cfg env id).result = .error e := by rw [hg]
  have ha := analyze_error v cfg env record_id id e hid hres
  rw [hg] at ha
  rw [ha, ← he]
  simp [statusUpdates, createdResults, downloads, metaLookups, modelPrompts, Call.status?,
    Call.created?, Call.url?, Call.token?, Call.prompt?]

/-- The sample task with no persona selected. -/
theorem invalid_task_marked_failed_witness :
    (postAnalyze sampleConfig noPersonaEnv sampleRequest).calls =
        [.update "tblTasks" "rec1" .analyzing, .get "tblTasks" "rec1",
          .update "tblTasks" "rec1" .failed] ∧
      (postAnalyze sampleConfig noPersonaEnv sampleRequest).outcome =
        .responded ⟨500, .error "未选择任何人物画像进行分析"⟩ :=
  have h := invalid_task_marked_failed indexVariant sampleConfig noPersonaEnv
    (some "rec1") "rec1" { sampleFields with personas := some [] } rfl rfl rfl
    (Or.inl rfl)
  ⟨h.1, h.2.1⟩

/-! ## The catch block -/

/-- C6. When a step of the guarded section throws an error with message `e`, the handler
issues after the calls of the guarded section exactly one more call, the update of the task
to `failed`; that is the only update to `failed` of the run; the response is 500 with the
message `e` itself; and both the calls and the response are the same whatever the outcome
of that update (only the log differs). -/
theorem error_marks_failed_and_answers_500 (v : Variant) (cfg : Config) (env : Env)
    (record_id : Option String) (id e : String)
    (hid : truthy record_id = some id)
    (herr : (guarded v cfg env id).result = .error e) :
    (analyze v cfg env record_id).calls =
        (guarded v cfg env id).calls ++ [.update cfg.TABLE_ID_TASKS id .failed] ∧
      (statusUpdates (analyze v cfg env record_id).calls).count .failed = 1 ∧
      (analyze v cfg env record_id).outcome = .responded ⟨500, .error e⟩ ∧
      ∀ r : Except String Unit,
        (analyze v cfg (env.withFailedUpdate r) record_id).calls =
            (analyze v cfg env record_id).calls ∧
          (analyze v cfg (env.withFailedUpdate r) record_id).outcome =
            .responded ⟨500, .error e⟩ := by
  have ha := analyze_error v cfg env record_id id e hid herr
  refine ⟨by rw [ha], ?_, by rw [ha], ?_⟩
  · rw [ha]
    simp only [statusUpdates, List.filterMap_append]
    rcases guarded_statuses v cfg env id with hs | hs <;>
      · simp only [statusUpdates] at hs
        rw [hs]
        simp [Call.status?]
  · intro r
    have herr2 : (guarded v cfg (env.withFailedUpdate r) id).result = .error e := by
      rw [guarded_withFailedUpdate]
      exact herr
    rw [analyze_error v cfg (env.withFailedUpdate r) record_id id e hid herr2, ha,
      guarded_withFailedUpdate]
    exact ⟨rfl, rfl⟩

set_option maxRecDepth 100000 in
/-- The model answers the third persona in prose: the error is reported with its message,
also when the update to `failed` is refused. -/
theorem error_marks_failed_and_answers_500_witness :
    (postAnalyze sampleConfig proseEnv sampleRequest).outcome =
        .responded ⟨500, .error "AI未能为画像 p3 返回有效的JSON对象"⟩ ∧
      (postAnalyze sampleConfig (proseEnv.withFailedUpdate (.error "403 Forbidden"))
          sampleRequest).outcome =
        .responded ⟨500, .error "AI未能为画像 p3 返回有效的JSON对象"⟩ :=
  have h := error_marks_failed_and_answers_500 indexVariant sampleConfig proseEnv
    (some "rec1") "rec1" "AI未能为画像 p3 返回有效的JSON对象" rfl rfl
  ⟨h.2.2.1, (h.2.2.2 (.error "403 Forbidden")).2⟩

/-! ## Errors inside the loop -/

/-- A run that reaches a persona whose analysis throws after two calls. -/
theorem analyze_abort (v : Variant) (cfg : Config) (env : Env)
    (record_id : Option String) (id : String) (fields : TaskFields) (vp : VideoPart)
    (pre post : List String) (p e : String) (c : List Call)
    (hid : truthy record_id = some id)
    (hupd : env.update cfg.TABLE_ID_TASKS id .analyzing = .ok ())
    (hget : env.getTask cfg.TABLE_ID_TASKS id = .ok fields)
    (hps : personaRecordIds fields = pre ++ p :: post)
    (hvid : (resolveVideo env fields).result = .ok vp)
    (hpre : (personaLoop v cfg env id vp pre).result = .ok ())
    (hp : analysePersona v cfg env id vp p = ⟨c, .error e⟩)
    (hc : statusUpdates c = [] ∧ createdResults c = []) :
    (analyze v cfg env record_id).calls =
        .update cfg.TABLE_ID_TASKS id .analyzing :: .get cfg.TABLE_ID_TASKS id ::
          ((resolveVideo env fields).calls ++ ((personaLoop v cfg env id vp pre).calls ++
            (c ++ [.update cfg.TABLE_ID_TASKS id .failed]))) ∧
      createdResults (analyze v cfg env record_id).calls =
        (describedPersonas cfg env pre).map (fun q => (id, q)) ∧
      statusUpdates (analyze v cfg env record_id).calls = [.analyzing, .failed] ∧
      (analyze v cfg env record_id).outcome = .responded ⟨500, .error e⟩ := by
  have hg := guarded_abort v cfg env id fields vp pre post p e c hupd hget hps hvid hpre hp
  have hres : (guarded v cfg env id).result = .error e := by rw [hg]
  have ha := analyze_error v cfg env record_id id e hid hres
  rw [hg] at ha
  obtain ⟨v1, v2, _⟩ := resolveVideo_quiet env fields
  obtain ⟨l1, _, _⟩ := personaLoop_quiet v cfg env id vp pre
  obtain ⟨l2, _⟩ := personaLoop_ok v cfg env id vp pre hpre
  obtain ⟨c1, c2⟩ := hc
  simp only [statusUpdates, createdResults] at v1 v2 l1 l2 c1 c2
  rw [ha]
  refine ⟨by simp, ?_, ?_, rfl⟩
  · simp [createdResults, Call.created?, v2, l2, c2]
  · simp [statusUpdates, Call.status?, v1, l1, c1]

/-- C7. When the loop reaches a persona `p` that has a description and the answer of the
model for it contains no opening brace followed later by a closing brace, the run stops at
that persona: its calls end with the read of `p`, the model call for `p` and the update to
`failed`, so there is no result record for `p` and no call at all for the personas after
it; the records created are those of the described personas before `p`; the statuses
written are `analyzing` then `failed`; and the response is 500 with a message that contains
the identifier of `p`. -/
theorem answer_without_object_aborts_loop (v : Variant) (cfg : Config) (env : Env)
    (record_id : Option String) (id : String) (fields : TaskFields) (videoPart : VideoPart)
    (pre post : List String) (p : String) (d : Option String) (desc text : String)
    (hid : truthy record_id = some id)
    (hupd : env.update cfg.TABLE_ID_TASKS id .analyzing = .ok ())
    (hget : env.getTask cfg.TABLE_ID_TASKS id = .ok fields)
    (hps : personaRecordIds fields = pre ++ p :: post)
    (hvid : (resolveVideo env fields).result = .ok videoPart)
    (hpre : (personaLoop v cfg env id videoPart pre).result = .ok ())
    (hp : env.getPersona cfg.TABLE_ID_PERSONAS p = .ok d) (hd : truthy d = some desc)
    (hg : env.generateContent v.model (v.prompt desc) videoPart = .ok text)
    (hno : ∀ a m b, text.data ≠ a ++ openBrace :: (m ++ closeBrace :: b)) :
    (analyze v cfg env record_id).calls =
        .update cfg.TABLE_ID_TASKS id .analyzing :: .get cfg.TABLE_ID_TASKS id ::
          ((resolveVideo env fields).calls ++
            ((personaLoop v cfg env id videoPart pre).calls ++
              [.get cfg.TABLE_ID_PERSONAS p,
                .generateContent v.model (v.prompt desc) videoPart,
                .update cfg.TABLE_ID_TASKS id .failed])) ∧
      createdResults (analyze v cfg env record_id).calls =
        (describedPersonas cfg env pre).map (fun q => (id, q)) ∧
      statusUpdates (analyze v cfg env record_id).calls = [.analyzing, .failed] ∧
      (analyze v cfg env record_id).outcome = .responded ⟨500, .error (noJsonMessage p)⟩ ∧
      p.data <:+: (noJsonMessage p).data := by
  have hm : jsonMatch text = none := by simp [jsonMatch, regexSearch_none text.data hno]
  have h := analyze_abort v cfg env record_id id fields videoPart pre post p
    (noJsonMessage p) _ hid hupd hget hps hvid hpre
    (analysePersona_no_match v cfg env id videoPart p d desc text hp hd hg hm)
    (by simp [statusUpdates, createdResults, Call.status?, Call.created?])
  refine ⟨by simpa using h.1, h.2.1, h.2.2.1, h.2.2.2, ?_⟩
  exact ⟨"AI未能为画像 ".data, " 返回有效的JSON对象".data, by simp [noJsonMessage]⟩

set_option maxRecDepth 100000 in
/-- The model answers the third persona of the sample task in prose. -/
theorem answer_without_object_aborts_loop_witness :
    createdResults (postAnalyze sampleConfig proseEnv sampleRequest).calls =
        [("rec1", "p1")] ∧
      statusUpdates (postAnalyze sampleConfig proseEnv sampleRequest).calls =
        [.analyzing, .failed] ∧
      (postAnalyze sampleConfig proseEnv sampleRequest).outcome =
        .responded ⟨500, .error "AI未能为画像 p3 返回有效的JSON对象"⟩ :=
  have h := answer_without_object_aborts_loop indexVariant sampleConfig proseEnv
    (some "rec1") "rec1" sampleFields sampleVideo ["p1", "p2"] [] "p3"
    (some "学生") "学生" "I cannot analyse this video." rfl rfl rfl rfl rfl rfl rfl rfl rfl
    (by
      intro a m b hab
      have hmem : openBrace ∈ "I cannot analyse this video.".data := by
        rw [hab]
        simp
      revert hmem
      decide)
  ⟨h.2.1, h.2.2.1, h.2.2.2.1⟩

/-- C8. When the loop reaches a persona `p` whose answer has a match that `JSON.parse`
rejects with message `e`, the whole request fails: the calls end with the read of `p`, the
model call for `p` and the update to `failed`, so no later persona is read or analysed; the
result records created are exactly those of the described personas before `p`; the statuses
written are `analyzing` then `failed`, never `completed`; and the response is 500 with the
body `{ error: e }`, which reports nothing else. -/
theorem parse_failure_aborts_request (v : Variant) (cfg : Config) (env : Env)
    (record_id : Option String) (id : String) (fields : TaskFields) (videoPart : VideoPart)
    (pre post : List String) (p : String) (d : Option String) (desc text matched e : String)
    (hid : truthy record_id = some id)
    (hupd : env.update cfg.TABLE_ID_TASKS id .analyzing = .ok ())
    (hget : env.getTask cfg.TABLE_ID_TASKS id = .ok fields)
    (hps : personaRecordIds fields = pre ++ p :: post)
    (hvid : (resolveVideo env fields).result = .ok videoPart)
    (hpre : (personaLoop v cfg env id videoPart pre).result = .ok ())
    (hp : env.getPersona cfg.TABLE_ID_PERSONAS p = .ok d) (hd : truthy d = some desc)
    (hg : env.generateContent v.model (v.prompt desc) videoPart = .ok text)
    (hm : jsonMatch text = some matched) (hparse : env.jsonParse matched = .error e) :
    (analyze v cfg env record_id).calls =
        .update cfg.TABLE_ID_TASKS id .analyzing :: .get cfg.TABLE_ID_TASKS id ::
          ((resolveVideo env fields).calls ++
            ((personaLoop v cfg env id videoPart pre).calls ++
              [.get cfg.TABLE_ID_PERSONAS p,
                .generateContent v.model (v.prompt desc) videoPart,
                .update cfg.TABLE_ID_TASKS id .failed])) ∧
      createdResults (analyze v cfg env record_id).calls =
        (describedPersonas cfg env pre).map (fun q => (id, q)) ∧
      statusUpdates (analyze v cfg env record_id).calls = [.analyzing, .failed] ∧
      Status.completed ∉ statusUpdates (analyze v cfg env record_id).calls ∧
      (analyze v cfg env record_id).outcome = .responded ⟨500, .error e⟩ := by
  have h := analyze_abort v cfg env record_id id fields videoPart pre post p e _ hid hupd
    hget hps hvid hpre
    (analysePersona_parse_error v cfg env id videoPart p d desc text matched e hp hd hg hm
      hparse)
    (by simp [statusUpdates, createdResults, Call.status?, Call.created?])
  refine ⟨by simpa using h.1, h.2.1, h.2.2.1, ?_, h.2.2.2⟩
  rw [h.2.2.1]
  decide

set_option maxRecDepth 100000 in
/-- The answer for the third persona of the sample task does not parse: the record of the
first persona was created, the second has no description, and the request fails. -/
theorem parse_failure_aborts_request_witness :
    createdResults (postAnalyze sampleConfig brokenJsonEnv sampleRequest).calls =
        [("rec1", "p1")] ∧
      statusUpdates (postAnalyze sampleConfig brokenJsonEnv sampleRequest).calls =
        [.analyzing, .failed] ∧
      (postAnalyze sampleConfig brokenJsonEnv sampleRequest).outcome =
        .responded ⟨500, .error "Unexpected token o in JSON at position 1"⟩ :=
  have h := parse_failure_aborts_request indexVariant sampleConfig brokenJsonEnv
    (some "rec1") "rec1" sampleFields sampleVideo ["p1", "p2"] [] "p3"
    (some "学生") "学生" "\x7boverall_summary: ok\x7d" "\x7boverall_summary: ok\x7d"
    "Unexpected token o in JSON at position 1" rfl rfl rfl rfl rfl rfl rfl rfl rfl rfl rfl
  ⟨h.2.1, h.2.2.1, h.2.2.2.2⟩

/-! ## The prompt -/

set_option maxRecDepth 100000 in
/-- C10, on the sample task with the descriptions `宝妈` and `学生`. The route of
`api/index.js` sends for each described persona the template with the description in it.
The handler of `api/analyze.js` sends the three characters `...` for each, and neither
description occurs in that prompt. -/
theorem analyze_js_prompt_lacks_description :
    modelPrompts (postAnalyze sampleConfig sampleEnv sampleRequest).calls =
        [promptHead ++ "宝妈" ++ promptTail, promptHead ++ "学生" ++ promptTail] ∧
      modelPrompts (handler sampleConfig sampleEnv sampleRequest).calls = ["...", "..."] ∧
      ¬ ("宝妈".data <:+: "...".data) ∧ ¬ ("学生".data <:+: "...".data) := by
  refine ⟨rfl, rfl, by decide, by decide⟩

end VideoAnalysis
